import Mathlib

/-!
# Verification of the discrete Bayesian-network inference core

Shallow embedding of `graphical_models/classes/dags/discrete_dag.py`:
dense probability tables are modelled as a shape together with a total
index function over `List ℕ` indices; log-domain values are modelled
symbolically as `Option ℚ`, where `none` denotes `-∞` and `some q`
denotes the real number `log q` (the pipeline only ever produces
`some q` for `q > 0`, so this representation is exact); Python
exceptions are modelled with `Except PyErr`.
-/

namespace GM

/-- Python exception kinds raised by the modelled code paths. -/
inductive PyErr where
  | einops : PyErr
  | valueError : PyErr
  | typeError : PyErr
  | keyError : PyErr
  | indexError : PyErr
  | notImplemented : PyErr
  | assertionError : PyErr
deriving DecidableEq, Repr

/-- A log-domain value: `none` is `-inf`, `some q` denotes `log q`. -/
def LogQ := Option ℚ
deriving DecidableEq

/-- `exp` of a log-domain value: `exp (-inf) = 0`, `exp (log q) = q`. -/
def lexp : LogQ → ℚ
  | none => 0
  | some q => q

/-- Addition in log domain (`-inf` absorbing), i.e. multiplication of the
denoted probabilities: `log a + log b = log (a*b)`. -/
def lmul : LogQ → LogQ → LogQ
  | some a, some b => some (a * b)
  | _, _ => none

/-- `log` of a sum of exponentials (the value `logsumexp` denotes exactly):
the sum `s` of the probabilities is nonnegative throughout the pipeline,
and `log s = -inf` iff `s = 0`. -/
def lse (s : ℚ) : LogQ := if 0 < s then some s else none

/-- The `eps` default of `no_warn_log` in the source (`1e-10`). -/
def eps : ℚ := 1 / 10000000000

/-- Entrywise body of `no_warn_log`: `np.log(x, where=x > eps)` with the
non-selected entries set to `-inf`.  Entries `≤ eps` (not only exact
zeros) become `-inf`; entries `> eps` keep their exact logarithm. -/
def no_warn_logE (x : ℚ) : LogQ := if eps < x then some x else none

/-- Plain `np.log` on a probability entry: `log 0 = -inf`, finite log for
positive entries (negative entries would be NaN and never occur). -/
def np_logE (x : ℚ) : LogQ := if 0 < x then some x else none

/-- A dense multi-dimensional array: its shape, and a total function from
positional `List ℕ` indices to entries (entries at out-of-range indices
are junk and never inspected by the algorithms). -/
structure Tensor (α : Type) where
  shape : List ℕ
  data : List ℕ → α

/-- Entrywise `no_warn_log` on an array (source `no_warn_log`). -/
def no_warn_log (t : Tensor ℚ) : Tensor LogQ :=
  ⟨t.shape, fun idx => no_warn_logE (t.data idx)⟩

/-- Entrywise `np.log` on an array. -/
def np_log (t : Tensor ℚ) : Tensor LogQ :=
  ⟨t.shape, fun idx => np_logE (t.data idx)⟩

/-- Entrywise `np.exp` back from log domain. -/
def np_exp (t : Tensor LogQ) : Tensor ℚ :=
  ⟨t.shape, fun idx => lexp (t.data idx)⟩

/-- All positional indices of an array of the given shape. -/
def allIdx : List ℕ → List (List ℕ)
  | [] => [[]]
  | d :: rest => (List.range d).flatMap (fun i => (allIdx rest).map (fun idx => i :: idx))

/-- Sum of `f` over all indices of a shape. -/
def sumIdx (dims : List ℕ) (f : List ℕ → ℚ) : ℚ :=
  ((allIdx dims).map f).sum

/-- Rebuild a full index of rank `n` from a reduced index `r` over the
kept axes and a summed-axes index `s`: position `p` takes its coordinate
from `s` when `p ∈ ixs` (in increasing position order) and from `r`
otherwise. -/
def mergeIdx (ixs : List ℕ) (n : ℕ) (r s : List ℕ) : List ℕ :=
  (List.range n).map (fun p =>
    if p ∈ ixs then s.getD ((List.range p).countP (fun q => q ∈ ixs)) 0
    else r.getD ((List.range p).countP (fun q => ¬ q ∈ ixs)) 0)

/-- Source `marginalize(table, ixs)`: `logsumexp` over the axes at the
positions listed in `ixs` (order-irrelevant, as for a numpy axis tuple). -/
def marginalize (table : Tensor LogQ) (ixs : List ℕ) : Tensor LogQ :=
  let n := table.shape.length
  let pos := (List.range n).zip table.shape
  let sumDims := (pos.filter (fun pz => pz.1 ∈ ixs)).map (fun pz => pz.2)
  let keepShape := (pos.filter (fun pz => ¬ pz.1 ∈ ixs)).map (fun pz => pz.2)
  ⟨keepShape, fun r => lse (sumIdx sumDims (fun s => lexp (table.data (mergeIdx ixs n r s))))⟩

/-- Source `repeat_dimensions`: einops `repeat` from axes named by
`curr_dims` (plus a trailing `d_new` axis when `add_new`) to axes named
by `new_dims` (plus `d_new`).  Fails like einops when the tensor rank
does not match the input pattern or an input axis is missing from the
output; fails like the Python `dim_sizes[ix]` lookup (TypeError) when a
new axis needs a size but `dim_sizes` is `None`.  Inconsistent axis
sizes (a numpy/einops error that cannot occur along the modelled call
paths) are not modelled. -/
def repeat_dimensions (t : Tensor α) (curr_dims new_dims : List ℕ)
    (dim_sizes : Option (ℕ → ℕ)) (add_new : Bool) : Except PyErr (Tensor α) :=
  if t.shape.length ≠ curr_dims.length + (if add_new then 1 else 0) then .error .einops
  else if ¬ curr_dims.all (fun v => v ∈ new_dims) then .error .einops
  else
    let sizeOf : (ℕ → ℕ) → ℕ → ℕ := fun ds v =>
      if v ∈ curr_dims then t.shape.getD (curr_dims.indexOf v) 0 else ds v
    let build : (ℕ → ℕ) → Tensor α := fun ds =>
      ⟨new_dims.map (sizeOf ds) ++ (if add_new then [t.shape.getD curr_dims.length 0] else []),
       fun idx => t.data ((curr_dims.map (fun v => idx.getD (new_dims.indexOf v) 0))
                  ++ (if add_new then [idx.getD new_dims.length 0] else []))⟩
    match dim_sizes with
    | some ds => .ok (build ds)
    | none =>
        if new_dims.all (fun v => v ∈ curr_dims) then .ok (build (fun _ => 0))
        else .error .typeError

/-- Source `add_variable`: `no_warn_log` the CPT, broadcast it from its
parent axes to the current variables (appending the node's own axis),
and add it to the running log table reshaped with a trailing length-1
axis. -/
def add_variable (table : Tensor LogQ) (current_variables : List ℕ)
    (conditional : Tensor ℚ) (node2dims : ℕ → ℕ) (parents : List ℕ) :
    Except PyErr (Tensor LogQ) :=
  match repeat_dimensions (no_warn_log conditional) parents current_variables
      (some node2dims) true with
  | .error e => .error e
  | .ok log_conditional =>
    .ok ⟨table.shape ++ [log_conditional.shape.getD current_variables.length 0],
         fun idx => lmul (table.data (idx.take table.shape.length)) (log_conditional.data idx)⟩

/-- The broadcast tensor produced by a successful `repeat_dimensions`
with `add_new = true` (named so elimination traces stay compact). -/
def bcast (lc : Tensor LogQ) (parents curr : List ℕ) (dims : ℕ → ℕ) : Tensor LogQ :=
  ⟨curr.map (fun v => if v ∈ parents then lc.shape.getD (parents.indexOf v) 0 else dims v)
     ++ [lc.shape.getD parents.length 0],
   fun idx => lc.data ((parents.map (fun v => idx.getD (curr.indexOf v) 0))
     ++ [idx.getD curr.length 0])⟩

/-- The tensor produced by a successful `add_variable`. -/
def addvarT (table : Tensor LogQ) (curr : List ℕ) (cond : Tensor ℚ)
    (dims : ℕ → ℕ) (parents : List ℕ) : Tensor LogQ :=
  ⟨table.shape ++ [(bcast (no_warn_log cond) parents curr dims).shape.getD curr.length 0],
   fun idx => lmul (table.data (idx.take table.shape.length))
     ((bcast (no_warn_log cond) parents curr dims).data idx)⟩

/-- `repeat_dimensions` with sizes and a new axis succeeds when the rank
matches and the input axes appear in the output. -/
lemma repeat_dimensions_some_ok (t : Tensor LogQ) (curr new : List ℕ) (ds : ℕ → ℕ)
    (h1 : t.shape.length = curr.length + 1) (h2 : ∀ v ∈ curr, v ∈ new) :
    repeat_dimensions t curr new (some ds) true = .ok (bcast t curr new ds) := by
  unfold repeat_dimensions
  rw [if_neg (by simp [h1]), if_neg (by simpa [List.all_eq_true] using h2)]
  rfl

/-- `add_variable` succeeds when the CPT rank is `parents + 1` and every
parent is a current variable, producing `addvarT`. -/
lemma add_variable_ok (table : Tensor LogQ) (curr : List ℕ) (cond : Tensor ℚ)
    (dims : ℕ → ℕ) (parents : List ℕ)
    (h1 : cond.shape.length = parents.length + 1) (h2 : ∀ v ∈ parents, v ∈ curr) :
    add_variable table curr cond dims parents = .ok (addvarT table curr cond dims parents) := by
  unfold add_variable
  rw [repeat_dimensions_some_ok (no_warn_log cond) parents curr dims (by simpa using h1) h2]
  rfl

/-- A rank-preserving reorder via `repeat_dimensions` with `None` sizes. -/
lemma repeat_dimensions_none_ok (t : Tensor LogQ) (curr new : List ℕ)
    (h1 : t.shape.length = curr.length) (h2 : ∀ v ∈ curr, v ∈ new) (h3 : ∀ v ∈ new, v ∈ curr) :
    repeat_dimensions t curr new none false = .ok
      ⟨new.map (fun v => if v ∈ curr then t.shape.getD (curr.indexOf v) 0 else 0) ++ [],
       fun idx => t.data ((curr.map (fun v => idx.getD (new.indexOf v) 0)) ++ [])⟩ := by
  unfold repeat_dimensions
  rw [if_neg (by simp [h1]), if_neg (by simpa [List.all_eq_true] using h2)]
  simp only [Bool.false_eq_true, if_false]
  rw [if_pos (by simpa [List.all_eq_true] using h3)]

/-- `np_exp` entry. -/
lemma np_exp_data (t : Tensor LogQ) (idx : List ℕ) :
    (np_exp t).data idx = lexp (t.data idx) := rfl

/-- `addvarT` entry. -/
lemma addvarT_data (table : Tensor LogQ) (curr : List ℕ) (cond : Tensor ℚ)
    (dims : ℕ → ℕ) (parents : List ℕ) (idx : List ℕ) :
    (addvarT table curr cond dims parents).data idx
      = lmul (table.data (idx.take table.shape.length))
          (no_warn_logE (cond.data ((parents.map (fun v => idx.getD (curr.indexOf v) 0))
            ++ [idx.getD curr.length 0]))) := rfl

/-- `addvarT` shape. -/
lemma addvarT_shape (table : Tensor LogQ) (curr : List ℕ) (cond : Tensor ℚ)
    (dims : ℕ → ℕ) (parents : List ℕ) :
    (addvarT table curr cond dims parents).shape
      = table.shape ++ [(curr.map (fun v =>
          if v ∈ parents then cond.shape.getD (parents.indexOf v) 0 else dims v)
            ++ [cond.shape.getD parents.length 0]).getD curr.length 0] := rfl

/-- `marginalize` entry. -/
lemma marginalize_data (T : Tensor LogQ) (ixs r : List ℕ) :
    (marginalize T ixs).data r
      = lse (sumIdx ((((List.range T.shape.length).zip T.shape).filter
            (fun pz => pz.1 ∈ ixs)).map (fun pz => pz.2))
          (fun s => lexp (T.data (mergeIdx ixs T.shape.length r s)))) := rfl

/-- `marginalize` shape. -/
lemma marginalize_shape (T : Tensor LogQ) (ixs : List ℕ) :
    (marginalize T ixs).shape
      = (((List.range T.shape.length).zip T.shape).filter
          (fun pz => ¬ pz.1 ∈ ixs)).map (fun pz => pz.2) := rfl

/-! ## The DAG collaborator -/

/-- A directed graph, as the external `DAG` collaborator stores it. -/
structure Digraph where
  nodes : List ℕ
  arcs : List (ℕ × ℕ)
deriving DecidableEq

/-- Modelled from the spec: the DAG collaborator's `children_of` query
(not part of `src/`): the nodes `c` with an arc `(n, c)`. -/
def Digraph.children_of (g : Digraph) (n : ℕ) : List ℕ :=
  g.nodes.filter (fun c => (n, c) ∈ g.arcs)

/-- Modelled from the spec: the DAG collaborator's `parents_of` query
(not part of `src/`): the nodes `p` with an arc `(p, n)`. -/
def Digraph.parents_of (g : Digraph) (n : ℕ) : List ℕ :=
  g.nodes.filter (fun p => (p, n) ∈ g.arcs)

/-- One step of the ancestor closure: add all parents of current members. -/
def ancestorsStep (g : Digraph) (s : List ℕ) : List ℕ :=
  (s ++ s.flatMap (g.parents_of)).dedup

/-- Iterate a list transformer. -/
def iterN (f : List ℕ → List ℕ) : ℕ → List ℕ → List ℕ
  | 0, s => s
  | n + 1, s => iterN f n (f s)

/-- Ancestors of `s` (including `s`): the parent closure, reached after
at most `|nodes|` rounds. -/
def ancestorsFrom (g : Digraph) (s : List ℕ) : List ℕ :=
  iterN (ancestorsStep g) g.nodes.length s

/-- Modelled from the spec: the DAG collaborator's `ancestral_subgraph`
(not part of `src/`): the sub-DAG induced by a node set and all its
ancestors. -/
def Digraph.ancestral_subgraph (g : Digraph) (s : List ℕ) : Digraph :=
  let anc := ancestorsFrom g s
  ⟨g.nodes.filter (fun n => n ∈ anc), g.arcs.filter (fun a => a.1 ∈ anc ∧ a.2 ∈ anc)⟩

/-- Kahn-style topological sort worker: repeatedly emit the first
remaining node none of whose parents remains. -/
def topoAux (g : Digraph) : ℕ → List ℕ → List ℕ
  | 0, _ => []
  | fuel + 1, remaining =>
    match remaining.find? (fun n => (g.parents_of n).all (fun p => ¬ p ∈ remaining)) with
    | none => []
    | some n => n :: topoAux g fuel (remaining.filter (fun m => m ≠ n))

/-- Modelled from the spec: the DAG collaborator's `topological_sort`
(not part of `src/`): a total order consistent with the arcs, here the
deterministic Kahn order that prefers earlier nodes in `nodes`. -/
def Digraph.topological_sort (g : Digraph) : List ℕ :=
  topoAux g g.nodes.length g.nodes

/-! ## The network model -/

/-- `DiscreteDAG` state: node list, arcs, per-node CPT, parent list and
alphabet (dictionaries become total functions queried only on nodes). -/
structure DiscreteDAG where
  nodes : List ℕ
  arcs : List (ℕ × ℕ)
  conditionals : ℕ → Tensor ℚ
  node2parents : ℕ → List ℕ
  node_alphabets : ℕ → List ℕ

def DiscreteDAG.graph (d : DiscreteDAG) : Digraph := ⟨d.nodes, d.arcs⟩

/-- `self.node2dims`: alphabet sizes. -/
def DiscreteDAG.node2dims (d : DiscreteDAG) : ℕ → ℕ :=
  fun n => (d.node_alphabets n).length

/-- `DiscreteDAG.__init__` with a `conditionals` mapping supplied: the
shape of each node's CPT is asserted to be the parents' dimensions
followed by the node's own dimension; on failure the constructor raises
(`AssertionError`), otherwise the fields are stored exactly as given. -/
def mkDiscreteDAG (nodes : List ℕ) (arcs : List (ℕ × ℕ)) (conditionals : ℕ → Tensor ℚ)
    (node2parents : ℕ → List ℕ) (node_alphabets : ℕ → List ℕ) :
    Except PyErr DiscreteDAG :=
  if nodes.all (fun node => (conditionals node).shape =
      ((node2parents node).map (fun p => (node_alphabets p).length))
        ++ [(node_alphabets node).length])
  then .ok ⟨nodes, arcs, conditionals, node2parents, node_alphabets⟩
  else .error .assertionError

/-- `set_conditional(node, cpt)`: store `cpt` as the node's CPT; the
in-place dict write becomes a functional update of the state. -/
def DiscreteDAG.set_conditional (d : DiscreteDAG) (node : ℕ) (cpt : Tensor ℚ) : DiscreteDAG :=
  { d with conditionals := fun n => if n = node then cpt else d.conditionals n }

/-- The point-mass CPT `np.array([1 if v == value else 0 for v in alphabet])`. -/
def pointMass (alphabet : List ℕ) (value : ℕ) : Tensor ℚ :=
  ⟨[alphabet.length], fun idx => if alphabet.getD (idx.getD 0 0) 0 = value then 1 else 0⟩

/-- `get_hard_interventional_dag(target_node, value)`: new network with
the target's CPT a point mass at `value`, its parent list emptied, the
arcs into it removed, and everything else shared with the original
(which, the edit being functional, is untouched). -/
def DiscreteDAG.get_hard_interventional_dag (d : DiscreteDAG) (target_node value : ℕ) :
    DiscreteDAG :=
  { nodes := d.nodes
    arcs := d.arcs.filter (fun a => a.2 ≠ target_node)
    conditionals := fun n =>
      if n = target_node then pointMass (d.node_alphabets target_node) value
      else d.conditionals n
    node2parents := fun n => if n = target_node then [] else d.node2parents n
    node_alphabets := d.node_alphabets }

/-! ## Sampling -/

/-- First index whose prefix sum exceeds `u`, if any. -/
def cdfIndexAux : List ℚ → ℚ → ℚ → ℕ → Option ℕ
  | [], _, _, _ => none
  | p :: rest, acc, u, i => if u < acc + p then some i else cdfIndexAux rest (acc + p) u (i + 1)

/-- `np.argmax(np.cumsum(ps) > u)`: the first index whose cumulative sum
exceeds `u`, and `0` when none does (argmax of an all-False array). -/
def cdfIndex (ps : List ℚ) (u : ℚ) : ℕ :=
  (cdfIndexAux ps 0 u 0).getD 0

/-- Modelled from the spec: `np.random.choice(alphabet, p=dist)` (an
external randomized primitive) draws a value of `alphabet` with the
given probabilities; modelled as inverse-CDF sampling driven by a
supplied uniform draw `u`. -/
def np_random_choice (alphabet : List ℕ) (p : Tensor ℚ) (u : ℚ) : ℕ :=
  alphabet.getD (cdfIndex ((List.range alphabet.length).map (fun i => p.data [i])) u) 0

/-- One step of ancestral sampling: draw the node's value (root: from
the marginal CPT via `np.random.choice`; non-root: from the CPT row
selected by the parents' sampled values, by inverse CDF) and record it. -/
def sampleStep (d : DiscreteDAG) (u : ℕ → ℚ) (samples : ℕ → ℕ) (node : ℕ) : ℕ → ℕ :=
  let parents := d.node2parents node
  let valv :=
    if parents.isEmpty then
      np_random_choice (d.node_alphabets node) (d.conditionals node) (u node)
    else
      let parent_vals := parents.map samples
      cdfIndex ((List.range (d.node2dims node)).map
        (fun j => (d.conditionals node).data (parent_vals ++ [j]))) (u node)
  fun m => if m = node then valv else samples m

/-- One ancestral sample of `sample()`: nodes in topological order; a
root draws from its marginal CPT via `np.random.choice`; a non-root
indexes its CPT by the parents' sampled values and draws an alphabet
index by inverse CDF (`argmax(cumsum > u)`).  `u` supplies one uniform
draw per node; the result maps each node to its sampled value. -/
def sample1 (d : DiscreteDAG) (u : ℕ → ℚ) : ℕ → ℕ :=
  d.graph.topological_sort.foldl (sampleStep d u) (fun _ => 0)

/-! ## Variable elimination -/

/-- One insertion step of `get_marginal`'s loop: fold in `new_node`'s
CPT, then sum out every current variable other than `new_node` whose
ancestral-subgraph children have all been added (axis positions from the
`node2ix` dict built over the pre-insertion `current`, a missing key
raising `KeyError`). -/
def gm_step1 (d : DiscreteDAG) (asub : Digraph) (current added : List ℕ)
    (table : Tensor LogQ) (new_node : ℕ) :
    Except PyErr (List ℕ × List ℕ × Tensor LogQ) :=
  match add_variable table current (d.conditionals new_node) d.node2dims
      (d.node2parents new_node) with
  | .error e => .error e
  | .ok table2 =>
    let current' := current ++ [new_node]
    let added' := added ++ [new_node]
    let marg := current'.filter (fun n =>
      ((asub.children_of n).all (fun c => c ∈ added')) ∧ n ≠ new_node)
    if marg.isEmpty then .ok (current', added', table2)
    else if marg.any (fun n => ¬ n ∈ current) then .error .keyError
    else .ok (current'.filter (fun n => ¬ n ∈ marg), added',
      marginalize table2 (marg.map (fun n => current.indexOf n)))

/-- `get_marginal(node)`: elimination over the topological order of the
node's ancestral subgraph; the running table starts from
`no_warn_log(conditionals[t[0]])`; after each insertion every current
variable other than the inserted one whose ancestral-subgraph children
have all been added is summed out (positions taken from the `node2ix`
dict built before the insertion, a missing key raising `KeyError`);
returns `np.exp` of the final table. -/
def DiscreteDAG.get_marginal (d : DiscreteDAG) (node : ℕ) : Except PyErr (Tensor ℚ) :=
  let asub := d.graph.ancestral_subgraph [node]
  let t := asub.topological_sort
  match t with
  | [] => .error .indexError
  | t0 :: rest =>
    let res := rest.foldl (fun (st : Except PyErr (List ℕ × List ℕ × Tensor LogQ)) new_node =>
      match st with
      | .error e => .error e
      | .ok (current, added, table) => gm_step1 d asub current added table new_node)
      (.ok ([t0], [t0], no_warn_log (d.conditionals t0)))
    match res with
    | .error e => .error e
    | .ok (_, _, table) => .ok (np_exp table)

/-- One insertion step of `get_marginals`'s loop: like `gm_step1` but a
variable is summed out once its children are added and it is not a
target. -/
def gm_step2 (d : DiscreteDAG) (asub : Digraph) (marginal_nodes current added : List ℕ)
    (table : Tensor LogQ) (new_node : ℕ) :
    Except PyErr (List ℕ × List ℕ × Tensor LogQ) :=
  match add_variable table current (d.conditionals new_node) d.node2dims
      (d.node2parents new_node) with
  | .error e => .error e
  | .ok table2 =>
    let current' := current ++ [new_node]
    let added' := added ++ [new_node]
    let marg := current'.filter (fun n =>
      ((asub.children_of n).all (fun c => c ∈ added')) ∧ ¬ n ∈ marginal_nodes)
    if marg.isEmpty then .ok (current', added', table2)
    else if marg.any (fun n => ¬ n ∈ current) then .error .keyError
    else .ok (current'.filter (fun n => ¬ n ∈ marg), added',
      marginalize table2 (marg.map (fun n => current.indexOf n)))

/-- Shared body of `get_marginals(marginal_nodes, log)` up to the final
exponentiation/reshape: like `get_marginal` but the running table starts
from `np.log(conditionals[t[0]])` and a variable is summed out once its
ancestral-subgraph children are all added and it is not a target. -/
def DiscreteDAG.get_marginals_core (d : DiscreteDAG) (marginal_nodes : List ℕ) :
    Except PyErr (List ℕ × Tensor LogQ) :=
  let asub := d.graph.ancestral_subgraph marginal_nodes
  let t := asub.topological_sort
  match t with
  | [] => .error .indexError
  | t0 :: rest =>
    let res := rest.foldl (fun (st : Except PyErr (List ℕ × List ℕ × Tensor LogQ)) new_node =>
      match st with
      | .error e => .error e
      | .ok (current, added, table) => gm_step2 d asub marginal_nodes current added table new_node)
      (.ok ([t0], [t0], np_log (d.conditionals t0)))
    match res with
    | .error e => .error e
    | .ok (current, _, table) => .ok (current, table)

/-- `get_marginals(marginal_nodes, log=False)`. -/
def DiscreteDAG.get_marginals (d : DiscreteDAG) (marginal_nodes : List ℕ) :
    Except PyErr (Tensor ℚ) :=
  match d.get_marginals_core marginal_nodes with
  | .error e => .error e
  | .ok (current, table) =>
    repeat_dimensions (np_exp table) current marginal_nodes none false

/-- `get_marginals(marginal_nodes, log=True)`. -/
def DiscreteDAG.get_marginals_log (d : DiscreteDAG) (marginal_nodes : List ℕ) :
    Except PyErr (Tensor LogQ) :=
  match d.get_marginals_core marginal_nodes with
  | .error e => .error e
  | .ok (current, table) =>
    repeat_dimensions table current marginal_nodes none false

/-- Result of `get_marginals_new`: the Python function returns the int
`1` for an empty target list and an array otherwise. -/
inductive MargRes (α : Type) where
  | scalar : ℕ → MargRes α
  | table : Tensor α → MargRes α

/-- The per-elimination-node loop of `get_marginals_new`: for each
`elim_node` of the elimination ordering, fold in the CPT of each of its
ancestral-subgraph children not yet present (with the parent pattern
restricted to `current_nodes`, exactly as the source builds
`remaining_parents`), then sum `elim_node` out unless it is a target
(`current_nodes.index` raising `ValueError` when it was never added). -/
def gmn_step (d : DiscreteDAG) (asub : Digraph) (marginal_nodes current : List ℕ)
    (table : Tensor LogQ) (elim_node : ℕ) :
    Except PyErr (List ℕ × Tensor LogQ) :=
  let new_children := (asub.children_of elim_node).filter (fun c => ¬ c ∈ current)
  match new_children.foldl (fun (st2 : Except PyErr (List ℕ × Tensor LogQ)) child =>
      match st2 with
      | .error e => .error e
      | .ok (current, table) =>
        match add_variable table current (d.conditionals child) d.node2dims
            ((d.node2parents child).filter (fun p => p ∈ current)) with
        | .error e => .error e
        | .ok table2 => .ok (current ++ [child], table2)) (.ok (current, table)) with
  | .error e => .error e
  | .ok (current, table) =>
    if ¬ elim_node ∈ marginal_nodes then
      if ¬ elim_node ∈ current then .error .valueError
      else .ok (current.filter (fun n => n ≠ elim_node),
        marginalize table [current.indexOf elim_node])
    else .ok (current, table)

def gmn_loop (d : DiscreteDAG) (asub : Digraph) (marginal_nodes eo : List ℕ) (node0 : ℕ) :
    Except PyErr (List ℕ × Tensor LogQ) :=
  eo.foldl (fun (st : Except PyErr (List ℕ × Tensor LogQ)) elim_node =>
    match st with
    | .error e => .error e
    | .ok (current, table) => gmn_step d asub marginal_nodes current table elim_node)
  (.ok ([node0], np_log (d.conditionals node0)))

/-- `get_marginals_new` up to the final exponentiation/reshape: `none`
stands for the early `return 1` on an empty target list. -/
def DiscreteDAG.get_marginals_new_res (d : DiscreteDAG) (marginal_nodes : List ℕ) :
    Except PyErr (Option (List ℕ × Tensor LogQ)) :=
  if marginal_nodes = [] then .ok none
  else
    let asub := d.graph.ancestral_subgraph marginal_nodes
    let eo := asub.topological_sort
    match eo with
    | [] => .error .indexError
    | node0 :: _ =>
      match gmn_loop d asub marginal_nodes eo node0 with
      | .error e => .error e
      | .ok (current, table) => .ok (some (current, table))

/-- `get_marginals_new(marginal_nodes, log=False)`. -/
def DiscreteDAG.get_marginals_new (d : DiscreteDAG) (marginal_nodes : List ℕ) :
    Except PyErr (MargRes ℚ) :=
  match d.get_marginals_new_res marginal_nodes with
  | .error e => .error e
  | .ok none => .ok (.scalar 1)
  | .ok (some (current, table)) =>
    match repeat_dimensions (np_exp table) current marginal_nodes none false with
    | .error e => .error e
    | .ok t => .ok (.table t)

/-- `get_marginals_new(marginal_nodes, log=True)`. -/
def DiscreteDAG.get_marginals_new_log (d : DiscreteDAG) (marginal_nodes : List ℕ) :
    Except PyErr (MargRes LogQ) :=
  match d.get_marginals_new_res marginal_nodes with
  | .error e => .error e
  | .ok none => .ok (.scalar 1)
  | .ok (some (current, table)) =>
    match repeat_dimensions table current marginal_nodes none false with
    | .error e => .error e
    | .ok t => .ok (.table t)

/-! ## Conditionals -/

/-- `get_conditional(marginal_nodes, cond_nodes)` with the default
`method="new"`: joint log marginal over the duplicate-free marginal
nodes followed by the conditioning nodes, conditioning log marginal by
summing the leading axes, exponentiated log-domain subtraction (entries
whose conditioning marginal is `-inf` would be NaN/inf and are
overwritten with the uniform `1/prod(marginal dims)`), then the
diagonal-selection broadcast when some node is in both sets (raising
`NotImplementedError` for more than one repeated node). -/
def DiscreteDAG.get_conditional (d : DiscreteDAG) (marginal_nodes cond_nodes : List ℕ) :
    Except PyErr (Tensor ℚ) :=
  let ms_nr := marginal_nodes.filter (fun n => ¬ n ∈ cond_nodes)
  let all_nodes := ms_nr ++ cond_nodes
  match d.get_marginals_new_log all_nodes with
  | .error e => .error e
  | .ok (.scalar _) => .error .typeError
  | .ok (.table full) =>
    let cond := marginalize full (List.range ms_nr.length)
    let sz : ℚ := (ms_nr.map (fun n => ((d.node_alphabets n).length : ℚ))).prod
    let conditional : Tensor ℚ :=
      ⟨full.shape, fun idx =>
        if cond.data (idx.drop ms_nr.length) = none then 1 / sz
        else lexp (full.data idx) / lexp (cond.data (idx.drop ms_nr.length))⟩
    if marginal_nodes.length = ms_nr.length then .ok conditional
    else
      let reps := marginal_nodes.filter (fun n => n ∈ cond_nodes)
      let conditional2 : Tensor ℚ :=
        ⟨marginal_nodes.map d.node2dims ++ cond_nodes.map d.node2dims,
         fun idx => conditional.data
           ((ms_nr.map (fun v => idx.getD (marginal_nodes.indexOf v) 0))
            ++ cond_nodes.map (fun v =>
                 idx.getD (marginal_nodes.length + cond_nodes.indexOf v) 0))⟩
      if reps.length > 1 then .error .notImplemented
      else match reps with
        | [] => .error .indexError
        | rep :: _ =>
          .ok ⟨conditional2.shape,
                fun idx => conditional2.data idx *
                  (if idx.getD (marginal_nodes.indexOf rep) 0 =
                      idx.getD (marginal_nodes.length + cond_nodes.indexOf rep) 0
                   then 1 else 0)⟩

/-- The conditioning log marginal computed inside `get_conditional`
(the `marginalize` of the joint log marginal over the leading
duplicate-free marginal axes). -/
def DiscreteDAG.cond_log_marginal (d : DiscreteDAG) (marginal_nodes cond_nodes : List ℕ) :
    Except PyErr (Tensor LogQ) :=
  let ms_nr := marginal_nodes.filter (fun n => ¬ n ∈ cond_nodes)
  match d.get_marginals_new_log (ms_nr ++ cond_nodes) with
  | .error e => .error e
  | .ok (.scalar _) => .error .typeError
  | .ok (.table full) => .ok (marginalize full (List.range ms_nr.length))

/-- Source `add_repeated_nodes_marginal`: broadcast a conditional over
the duplicate-free marginal axes to all marginal axes, then multiply by
the indicator selecting the conditioning value of the repeated node;
more than one repeated node raises `NotImplementedError`. -/
def add_repeated_nodes_marginal (conditional : Tensor ℚ)
    (marginal_nodes cond_nodes : List ℕ) (node2dims : ℕ → ℕ) (cond_vals : List ℕ) :
    Except PyErr (Tensor ℚ) :=
  let ms_nr := marginal_nodes.filter (fun n => ¬ n ∈ cond_nodes)
  let ms_rep := marginal_nodes.filter (fun n => n ∈ cond_nodes)
  if conditional.shape.length ≠ ms_nr.length then .error .einops
  else
    let rep1 : Tensor ℚ :=
      ⟨marginal_nodes.map (fun v =>
          if v ∈ ms_nr then conditional.shape.getD (ms_nr.indexOf v) 0 else node2dims v),
       fun idx => conditional.data
          (ms_nr.map (fun v => idx.getD (marginal_nodes.indexOf v) 0))⟩
    if ms_rep.length > 1 then .error .notImplemented
    else match ms_rep with
      | [] => .error .indexError
      | rep :: _ =>
        let cond_repeat_ix := cond_nodes.indexOf rep
        .ok ⟨rep1.shape, fun idx =>
          rep1.data idx *
            (if idx.getD (marginal_nodes.indexOf rep) 0 = cond_vals.getD cond_repeat_ix 0
             then 1 else 0)⟩

/-- Source `add_repeated_nodes_conditional`: broadcast a conditional
over `ms_nr ++ cond_nodes` to all marginal axes followed by the
conditioning axes, then multiply by the identity-matrix selector of the
repeated node; more than one repeated node raises
`NotImplementedError`. -/
def add_repeated_nodes_conditional (conditional : Tensor ℚ)
    (marginal_nodes cond_nodes : List ℕ) (node2dims : ℕ → ℕ) :
    Except PyErr (Tensor ℚ) :=
  let ms_nr := marginal_nodes.filter (fun n => ¬ n ∈ cond_nodes)
  let all_nodes := ms_nr ++ cond_nodes
  let ms_rep := marginal_nodes.filter (fun n => n ∈ cond_nodes)
  if conditional.shape.length ≠ all_nodes.length then .error .einops
  else
    let rep1 : Tensor ℚ :=
      ⟨marginal_nodes.map node2dims ++ cond_nodes.map node2dims,
       fun idx => conditional.data
          ((ms_nr.map (fun v => idx.getD (marginal_nodes.indexOf v) 0))
           ++ cond_nodes.map (fun v =>
                idx.getD (marginal_nodes.length + cond_nodes.indexOf v) 0))⟩
    if ms_rep.length > 1 then .error .notImplemented
    else match ms_rep with
      | [] => .error .indexError
      | rep :: _ =>
        .ok ⟨rep1.shape, fun idx =>
          rep1.data idx *
            (if idx.getD (marginal_nodes.indexOf rep) 0 =
                idx.getD (marginal_nodes.length + cond_nodes.indexOf rep) 0
             then 1 else 0)⟩

/-! ## Helper accessors and concrete networks -/

/-- Entry of a fallible probability table, `none` on an exception. -/
def exElemQ (e : Except PyErr (Tensor ℚ)) (idx : List ℕ) : Option ℚ :=
  match e with
  | .ok t => some (t.data idx)
  | .error _ => none

/-- Entry of a fallible log table, `none` on an exception. -/
def exElemL (e : Except PyErr (Tensor LogQ)) (idx : List ℕ) : Option LogQ :=
  match e with
  | .ok t => some (t.data idx)
  | .error _ => none

/-- Sum of `f i` for `i < n`. -/
def rsum (n : ℕ) (f : ℕ → ℚ) : ℚ :=
  ((List.range n).map f).sum

/-- The collider network `0 → 2 ← 1`: two fair-ish binary roots, node 2
a deterministic copy of node 0. -/
def colliderD : DiscreteDAG :=
  { nodes := [0, 1, 2]
    arcs := [(0, 2), (1, 2)]
    conditionals := fun n =>
      if n = 0 then ⟨[2], fun idx => if idx.getD 0 0 = 0 then 1/4 else 3/4⟩
      else if n = 1 then ⟨[2], fun idx => if idx.getD 0 0 = 0 then 1/2 else 1/2⟩
      else ⟨[2, 2, 2], fun idx => if idx.getD 2 0 = idx.getD 0 0 then 1 else 0⟩
    node2parents := fun n => if n = 2 then [0, 1] else []
    node_alphabets := fun _ => [0, 1] }

/-- A generic 3-node chain `0 → 1 → 2` with alphabets `a0, a1, a2` and
CPT entry functions `f0, f1, f2` (node-last axis order). -/
def chain3 (a0 a1 a2 : List ℕ) (f0 : ℕ → ℚ) (f1 f2 : ℕ → ℕ → ℚ) : DiscreteDAG :=
  { nodes := [0, 1, 2]
    arcs := [(0, 1), (1, 2)]
    conditionals := fun n =>
      if n = 0 then ⟨[a0.length], fun idx => f0 (idx.getD 0 0)⟩
      else if n = 1 then ⟨[a0.length, a1.length], fun idx => f1 (idx.getD 0 0) (idx.getD 1 0)⟩
      else ⟨[a1.length, a2.length], fun idx => f2 (idx.getD 0 0) (idx.getD 1 0)⟩
    node2parents := fun n => if n = 0 then [] else if n = 1 then [0] else [1]
    node_alphabets := fun n => if n = 0 then a0 else if n = 1 then a1 else a2 }

/-- A concrete binary chain instance used by witnesses. -/
def chainC : DiscreteDAG :=
  chain3 [0, 1] [0, 1] [0, 1] (fun _ => 1/2)
    (fun i j => if i = 0 then (if j = 0 then 1/4 else 3/4)
                else (if j = 0 then 2/3 else 1/3))
    (fun j k => if j = k then 1 else 0)

/-- A 2-node chain whose root puts probability 0 on value 1, so the
conditioning assignment `0 = 1` has marginal probability exactly zero. -/
def zchainD : DiscreteDAG :=
  { nodes := [0, 1]
    arcs := [(0, 1)]
    conditionals := fun n =>
      if n = 0 then ⟨[2], fun idx => if idx.getD 0 0 = 0 then 1 else 0⟩
      else ⟨[2, 2], fun idx => if idx.getD 1 0 = 0 then 3/10 else 7/10⟩
    node2parents := fun n => if n = 1 then [0] else []
    node_alphabets := fun _ => [0, 1] }

/-! ## Theorems -/

/-- C1: on the collider network `0 → 2 ← 1` with target `[2]`, the second
root is never folded into the running table by `get_marginals_new` (nodes
are only ever added as children of processed nodes), so its einops
`repeat` pattern has fewer axes than the child's CPT and the call raises,
for both `log=False` and `log=True`; `get_marginals` on the same input
returns the correct marginal `[1/4, 3/4]`.  The two elimination
strategies therefore do not return elementwise-equal tables. -/
theorem C1_collider_get_marginals_new_crashes :
    colliderD.get_marginals_new [2] = .error .einops ∧
    colliderD.get_marginals_new_log [2] = .error .einops ∧
    exElemQ (colliderD.get_marginals [2]) [0] = some (1/4) ∧
    exElemQ (colliderD.get_marginals [2]) [1] = some (3/4) ∧
    exElemL (colliderD.get_marginals_log [2]) [0] = some (lse (1/4)) ∧
    exElemL (colliderD.get_marginals_log [2]) [1] = some (lse (3/4)) :=
  ⟨rfl, rfl, by with_unfolding_all rfl, by with_unfolding_all rfl,
   by with_unfolding_all rfl, by with_unfolding_all rfl⟩

/-- C4 counterexample: the entry `eps = 1e-10` is not zero, yet the log
conversion maps it to `-inf` (the source masks with `x > eps`, not
`x != 0`). -/
theorem C4_counterexample :
    (no_warn_log ⟨[], fun _ => eps⟩).data [] = none ∧ eps ≠ 0 :=
  ⟨by with_unfolding_all rfl, by with_unfolding_all decide⟩

/-- C4 amended: an entry of `no_warn_log`'s result is `-inf` iff the
corresponding input entry is at most `eps = 1e-10`; every entry greater
than `eps` is mapped to its natural log (`some q` denotes `log q`). -/
theorem C4_no_warn_log_amended (t : Tensor ℚ) (idx : List ℕ) :
    ((no_warn_log t).data idx = none ↔ t.data idx ≤ eps) ∧
    (eps < t.data idx → (no_warn_log t).data idx = some (t.data idx)) := by
  unfold no_warn_log no_warn_logE
  by_cases h : eps < t.data idx <;> simp [h]
  exact le_of_not_lt h

/-- C4 witness: amended theorem applied at a rank-0 table holding `1/2`. -/
theorem C4_witness :
    eps < (Tensor.mk [] (fun _ => (1 : ℚ)/2) : Tensor ℚ).data [] ∧
    (no_warn_log ⟨[], fun _ => (1 : ℚ)/2⟩).data []
      = some ((Tensor.mk [] (fun _ => (1 : ℚ)/2) : Tensor ℚ).data []) :=
  ⟨by with_unfolding_all decide,
   (C4_no_warn_log_amended ⟨[], fun _ => (1 : ℚ)/2⟩ []).2 (by with_unfolding_all decide)⟩

/-- C6: `get_hard_interventional_dag` returns a network whose target CPT
is the point mass at the value, whose target parent list is empty, with
no arcs into the target, the remaining arcs and every other node's CPT,
parent list and alphabet equal to the original's; the edit is functional,
so the original network is untouched. -/
theorem C6_hard_intervention_frame (d : DiscreteDAG) (target value : ℕ) :
    (d.get_hard_interventional_dag target value).conditionals target
      = pointMass (d.node_alphabets target) value ∧
    (d.get_hard_interventional_dag target value).node2parents target = [] ∧
    (∀ a ∈ (d.get_hard_interventional_dag target value).arcs, a.2 ≠ target) ∧
    (d.get_hard_interventional_dag target value).arcs
      = d.arcs.filter (fun a => a.2 ≠ target) ∧
    (∀ n, n ≠ target →
      (d.get_hard_interventional_dag target value).conditionals n = d.conditionals n ∧
      (d.get_hard_interventional_dag target value).node2parents n = d.node2parents n) ∧
    (d.get_hard_interventional_dag target value).node_alphabets = d.node_alphabets ∧
    (d.get_hard_interventional_dag target value).nodes = d.nodes := by
  refine ⟨by simp [DiscreteDAG.get_hard_interventional_dag],
    by simp [DiscreteDAG.get_hard_interventional_dag], ?_, rfl,
    fun n hn => ⟨by simp [DiscreteDAG.get_hard_interventional_dag, hn],
      by simp [DiscreteDAG.get_hard_interventional_dag, hn]⟩, rfl, rfl⟩
  intro a ha
  have := List.of_mem_filter ha
  simpa using this

/-- C6 witness: the frame theorem applied to the collider at node 2. -/
theorem C6_witness :
    (colliderD.get_hard_interventional_dag 2 1).node2parents 2 = [] ∧
    (0 : ℕ) ≠ 2 ∧
    (colliderD.get_hard_interventional_dag 2 1).conditionals 0 = colliderD.conditionals 0 :=
  ⟨(C6_hard_intervention_frame colliderD 2 1).2.1, by decide,
   ((C6_hard_intervention_frame colliderD 2 1).2.2.2.2.1 0 (by decide)).1⟩

/-- C8: with a conditionals mapping supplied, construction succeeds (and
stores the fields exactly as given, with no coercion) iff every node's
CPT shape equals its parents' dimensions followed by its own dimension,
and otherwise fails with an assertion failure. -/
theorem C8_init_shape_assertion (nodes : List ℕ) (arcs : List (ℕ × ℕ))
    (conditionals : ℕ → Tensor ℚ) (node2parents : ℕ → List ℕ)
    (node_alphabets : ℕ → List ℕ) :
    (mkDiscreteDAG nodes arcs conditionals node2parents node_alphabets
        = .ok ⟨nodes, arcs, conditionals, node2parents, node_alphabets⟩ ↔
      ∀ n ∈ nodes, (conditionals n).shape =
        ((node2parents n).map (fun p => (node_alphabets p).length))
          ++ [(node_alphabets n).length]) ∧
    (mkDiscreteDAG nodes arcs conditionals node2parents node_alphabets
        = .error .assertionError ↔
      ¬ ∀ n ∈ nodes, (conditionals n).shape =
        ((node2parents n).map (fun p => (node_alphabets p).length))
          ++ [(node_alphabets n).length]) := by
  unfold mkDiscreteDAG
  by_cases h : ∀ n ∈ nodes, (conditionals n).shape =
      ((node2parents n).map (fun p => (node_alphabets p).length))
        ++ [(node_alphabets n).length]
  · rw [if_pos (by simpa [List.all_eq_true] using h)]
    exact ⟨⟨fun _ => h, fun _ => rfl⟩, by simpa using h⟩
  · rw [if_neg (by simpa [List.all_eq_true] using h)]
    exact ⟨by simpa using h, ⟨fun _ => h, fun _ => rfl⟩⟩

/-- C8 witness: a matching-shape construction succeeds and a mismatched
one fails, via the two directions of the assertion theorem. -/
theorem C8_witness :
    mkDiscreteDAG [0] [] (fun _ => ⟨[2], fun _ => 1/2⟩) (fun _ => []) (fun _ => [0, 1])
      = .ok ⟨[0], [], fun _ => ⟨[2], fun _ => 1/2⟩, fun _ => [], fun _ => [0, 1]⟩ ∧
    mkDiscreteDAG [0] [] (fun _ => ⟨[3], fun _ => 1/2⟩) (fun _ => []) (fun _ => [0, 1])
      = .error .assertionError :=
  ⟨(C8_init_shape_assertion [0] [] (fun _ => ⟨[2], fun _ => 1/2⟩)
      (fun _ => []) (fun _ => [0, 1])).1.2 (by decide),
   (C8_init_shape_assertion [0] [] (fun _ => ⟨[3], fun _ => 1/2⟩)
      (fun _ => []) (fun _ => [0, 1])).2.2 (by decide)⟩

/-- C10: `set_conditional` stores the given CPT for the node — for any
CPT whatsoever, with no shape or normalization check — and leaves the
node list, arcs, parent lists, alphabets and all other CPTs unchanged. -/
theorem C10_set_conditional_frame (d : DiscreteDAG) (node : ℕ) (cpt : Tensor ℚ) :
    (d.set_conditional node cpt).conditionals node = cpt ∧
    (∀ m, m ≠ node → (d.set_conditional node cpt).conditionals m = d.conditionals m) ∧
    (d.set_conditional node cpt).nodes = d.nodes ∧
    (d.set_conditional node cpt).arcs = d.arcs ∧
    (d.set_conditional node cpt).node2parents = d.node2parents ∧
    (d.set_conditional node cpt).node_alphabets = d.node_alphabets :=
  ⟨by simp [DiscreteDAG.set_conditional],
   fun m hm => by simp [DiscreteDAG.set_conditional, hm],
   rfl, rfl, rfl, rfl⟩

/-- C3: whenever the conditioning log marginal computed inside
`get_conditional` is exactly `-inf` (conditioning probability exactly
zero) at a conditioning assignment, the returned conditional holds the
uniform value `1/(product of the marginal nodes' alphabet sizes)` at
every marginal-value combination of that assignment — a defined
fallback, not NaN and not an exception. -/
theorem C3_zero_conditioning_uniform (d : DiscreteDAG) (ms cs : List ℕ) (t : Tensor ℚ)
    (idxm idxc : List ℕ)
    (hdis : ∀ n ∈ ms, ¬ n ∈ cs)
    (hlen : idxm.length = ms.length)
    (hzero : exElemL (d.cond_log_marginal ms cs) idxc = some none)
    (ht : d.get_conditional ms cs = .ok t) :
    t.data (idxm ++ idxc)
      = 1 / ((ms.map (fun n => ((d.node_alphabets n).length : ℚ))).prod) := by
  have hfilter : ms.filter (fun n => ¬ n ∈ cs) = ms := by
    rw [List.filter_eq_self]
    intro a ha
    simpa using hdis a ha
  unfold DiscreteDAG.get_conditional at ht
  unfold DiscreteDAG.cond_log_marginal at hzero
  rw [hfilter] at ht hzero
  dsimp only at ht hzero
  cases hfl : d.get_marginals_new_log (ms ++ cs) with
  | error e =>
    rw [hfl] at ht
    exact absurd ht (by simp)
  | ok mr =>
    cases mr with
    | scalar k =>
      rw [hfl] at ht
      exact absurd ht (by simp)
    | table full =>
      rw [hfl] at ht hzero
      dsimp only at ht
      simp only [exElemL, Option.some.injEq] at hzero
      rw [if_pos rfl] at ht
      cases ht
      have hd : List.drop ms.length (idxm ++ idxc) = idxc := by
        rw [← hlen]
        exact List.drop_left idxm idxc
      show (if (marginalize full (List.range ms.length)).data
          (List.drop ms.length (idxm ++ idxc)) = none then _ else _) = _
      rw [hd, if_pos hzero]

/-- C3 witness: the 2-node chain whose root has probability zero on
value 1, conditioning on that value: the conditional over node 1 is the
uniform `1/2` there. -/
theorem C3_witness :
    ∃ t, zchainD.get_conditional [1] [0] = .ok t ∧
      t.data ([0] ++ [1])
        = 1 / ((([1] : List ℕ).map (fun n => ((zchainD.node_alphabets n).length : ℚ))).prod) := by
  have h : ∃ t, zchainD.get_conditional [1] [0] = .ok t := ⟨_, rfl⟩
  obtain ⟨t, ht⟩ := h
  refine ⟨t, ht, ?_⟩
  exact C3_zero_conditioning_uniform zchainD [1] [0] t [0] [1] (by decide) (by decide)
    (by with_unfolding_all rfl) ht

/-- The members and the non-members of `cs` split the length of a list. -/
lemma length_filter_mem_split (l cs : List ℕ) :
    (l.filter (fun n => n ∈ cs)).length + (l.filter (fun n => ¬ n ∈ cs)).length = l.length := by
  induction l with
  | nil => rfl
  | cons a tl ih =>
    simp only [List.filter_cons, decide_not] at ih ⊢
    by_cases h : a ∈ cs <;> simp [h] <;> omega

/-- C7: in each repeated-variable broadcast path — the
`add_repeated_nodes_marginal` and `add_repeated_nodes_conditional`
helpers (on a conditional of the expected rank) and the repeated-node
branch of `get_conditional` (when the joint marginal was computed) —
more than one variable in both the marginal and the conditioning set
raises `NotImplementedError` instead of returning a table. -/
theorem C7_multiple_repeats_not_implemented :
    (∀ (conditional : Tensor ℚ) (ms cs : List ℕ) (n2d : ℕ → ℕ) (cvals : List ℕ),
      conditional.shape.length = (ms.filter (fun n => ¬ n ∈ cs)).length →
      1 < (ms.filter (fun n => n ∈ cs)).length →
      add_repeated_nodes_marginal conditional ms cs n2d cvals = .error .notImplemented) ∧
    (∀ (conditional : Tensor ℚ) (ms cs : List ℕ) (n2d : ℕ → ℕ),
      conditional.shape.length = ((ms.filter (fun n => ¬ n ∈ cs)) ++ cs).length →
      1 < (ms.filter (fun n => n ∈ cs)).length →
      add_repeated_nodes_conditional conditional ms cs n2d = .error .notImplemented) ∧
    (∀ (d : DiscreteDAG) (ms cs : List ℕ) (full : Tensor LogQ),
      d.get_marginals_new_log ((ms.filter (fun n => ¬ n ∈ cs)) ++ cs) = .ok (.table full) →
      1 < (ms.filter (fun n => n ∈ cs)).length →
      d.get_conditional ms cs = .error .notImplemented) := by
  refine ⟨?_, ?_, ?_⟩
  · intro conditional ms cs n2d cvals hrank hrep
    unfold add_repeated_nodes_marginal
    rw [if_neg (by simp [hrank])]
    rw [if_pos hrep]
  · intro conditional ms cs n2d hrank hrep
    unfold add_repeated_nodes_conditional
    rw [if_neg (by simp [hrank])]
    rw [if_pos hrep]
  · intro d ms cs full hfull hrep
    have hne : ms.length ≠ (ms.filter (fun n => ¬ n ∈ cs)).length := by
      have hsplit := length_filter_mem_split ms cs
      intro hcontra
      omega
    unfold DiscreteDAG.get_conditional
    dsimp only
    rw [hfull]
    dsimp only
    rw [if_neg hne, if_pos hrep]

/-- C7 witness: the three paths at concrete inputs with two repeated
variables each. -/
theorem C7_witness :
    add_repeated_nodes_marginal ⟨[], fun _ => 1⟩ [0, 1] [0, 1] (fun _ => 2) [0, 0]
      = .error .notImplemented ∧
    add_repeated_nodes_conditional ⟨[2, 2], fun _ => 1⟩ [0, 1] [0, 1] (fun _ => 2)
      = .error .notImplemented ∧
    chainC.get_conditional [1, 2] [1, 2] = .error .notImplemented := by
  refine ⟨C7_multiple_repeats_not_implemented.1 _ [0, 1] [0, 1] _ _ (by decide) (by decide),
          C7_multiple_repeats_not_implemented.2.1 _ [0, 1] [0, 1] _ (by decide) (by decide),
          ?_⟩
  have h : ∃ full, chainC.get_marginals_new_log
      ((([1, 2] : List ℕ).filter (fun n => ¬ n ∈ ([1, 2] : List ℕ))) ++ [1, 2])
        = .ok (.table full) := ⟨_, rfl⟩
  obtain ⟨full, hf⟩ := h
  exact C7_multiple_repeats_not_implemented.2.2 chainC [1, 2] [1, 2] full hf (by decide)

/-- A successful `repeat_dimensions` with `add_new = false` returns a
table of rank `new_dims.length`. -/
lemma repeat_dimensions_ok_length {α : Type} {t : Tensor α} {curr new : List ℕ}
    {ds : Option (ℕ → ℕ)} {t' : Tensor α}
    (h : repeat_dimensions t curr new ds false = .ok t') :
    t'.shape.length = new.length := by
  simp only [repeat_dimensions, Bool.false_eq_true, if_false, Nat.add_zero] at h
  split at h
  · exact absurd h (by simp)
  · split at h
    · exact absurd h (by simp)
    · split at h
      · cases h
        simp
      · split at h
        · cases h
          simp
        · exact absurd h (by simp)

/-- A non-empty target list never takes the scalar shortcut of
`get_marginals_new`. -/
lemma get_marginals_new_res_ne_none {d : DiscreteDAG} {ms : List ℕ}
    (hms : ms ≠ []) : d.get_marginals_new_res ms ≠ .ok none := by
  unfold DiscreteDAG.get_marginals_new_res
  rw [if_neg hms]
  dsimp only
  split
  · simp
  · split <;> simp

/-- C9: `get_marginals_new` on an empty target list returns the scalar
`1` for every network and both log settings (the result is the same for
all networks, so no CPT is examined); every successful non-empty call
returns a table of rank equal to the number of requested nodes, never a
scalar. -/
theorem C9_empty_scalar_nonempty_table :
    (∀ d : DiscreteDAG, d.get_marginals_new [] = .ok (.scalar 1) ∧
      d.get_marginals_new_log [] = .ok (.scalar 1)) ∧
    (∀ (d : DiscreteDAG) (ms : List ℕ) (r : MargRes ℚ), ms ≠ [] →
      d.get_marginals_new ms = .ok r →
      ∃ t, r = .table t ∧ t.shape.length = ms.length) := by
  refine ⟨fun d => ⟨rfl, rfl⟩, fun d ms r hms hok => ?_⟩
  unfold DiscreteDAG.get_marginals_new at hok
  split at hok
  · exact absurd hok (by simp)
  · rename_i heq
    exact absurd heq (get_marginals_new_res_ne_none hms)
  · rename_i current table heq
    split at hok
    · exact absurd hok (by simp)
    · rename_i t hrep
      cases hok
      exact ⟨t, rfl, repeat_dimensions_ok_length hrep⟩

/-- C9 witness: the theorem applied at the concrete chain network with
the non-empty target `[2]`. -/
theorem C9_witness :
    ([2] : List ℕ) ≠ [] ∧
    ∃ r, chainC.get_marginals_new [2] = .ok r ∧
      ∃ t, r = .table t ∧ t.shape.length = ([2] : List ℕ).length := by
  refine ⟨by decide, ?_⟩
  have hok : ∃ r, chainC.get_marginals_new [2] = .ok r := ⟨_, rfl⟩
  obtain ⟨r, hr⟩ := hok
  exact ⟨r, hr, C9_empty_scalar_nonempty_table.2 chainC [2] r (by decide) hr⟩

/-- Entries strictly before the first occurrence of `a` differ from `a`. -/
lemma getD_ne_of_lt_indexOf {l : List ℕ} {a i : ℕ} (h : i < l.indexOf a) :
    l.getD i 0 ≠ a := by
  induction l generalizing i with
  | nil => simp at h
  | cons b tl ih =>
    rw [List.indexOf_cons] at h
    by_cases hb : b = a
    · simp [hb] at h
    · cases i with
      | zero => simpa using hb
      | succ j =>
        simp only [bne_iff_ne, ne_eq, hb, not_false_eq_true, cond_eq_if, if_neg,
          beq_iff_eq] at h
        exact ih (by omega)

/-- The entry at the first occurrence of a member is that member. -/
lemma getD_indexOf_of_mem {l : List ℕ} {a : ℕ} (h : a ∈ l) :
    l.getD (l.indexOf a) 0 = a := by
  have hlt : l.indexOf a < l.length := List.indexOf_lt_length.2 h
  rw [List.getD_eq_getElem l 0 hlt]
  exact List.getElem_indexOf hlt

/-- In a duplicate-free list, entries away from `indexOf a` differ from `a`. -/
lemma getD_ne_of_nodup {l : List ℕ} {a i : ℕ} (hnd : l.Nodup)
    (hi : i < l.length) (hne : i ≠ l.indexOf a) : l.getD i 0 ≠ a := by
  intro hcontra
  rw [List.getD_eq_getElem l 0 hi] at hcontra
  exact hne (by rw [← hcontra, List.indexOf_getElem hnd i hi])

/-- The inverse-CDF scan over a point-mass prefix: all-zero entries are
skipped, the entry `1` at position `k` absorbs every `u ∈ [acc, acc+1)`. -/
lemma cdfIndexAux_point : ∀ (ps : List ℚ) (k i : ℕ) (acc u : ℚ),
    (∀ j, j < k → ps.getD j 0 = 0) → ps.getD k 0 = 1 → k < ps.length →
    acc ≤ u → u < acc + 1 →
    cdfIndexAux ps acc u i = some (i + k) := by
  intro ps
  induction ps with
  | nil => intro k i acc u _ _ hk; simp at hk
  | cons p rest ih =>
    intro k i acc u h0 h1 hk hu0 hu1
    cases k with
    | zero =>
      have hp : p = 1 := by simpa using h1
      unfold cdfIndexAux
      rw [if_pos (by rw [hp]; linarith)]
      simp
    | succ k2 =>
      have hp : p = 0 := by simpa using h0 0 (Nat.succ_pos k2)
      unfold cdfIndexAux
      rw [if_neg (by rw [hp]; linarith)]
      have := ih k2 (i + 1) (acc + p) u
        (fun j hj => by simpa using h0 (j + 1) (by omega))
        (by simpa using h1) (by simpa using hk)
        (by rw [hp]; linarith) (by rw [hp]; linarith)
      rw [this]
      congr 1
      omega

/-- `argmax(cumsum(ps) > u)` on a point mass at position `k` is `k`, for
any uniform draw `u ∈ [0, 1)`. -/
lemma cdfIndex_point (ps : List ℚ) (k : ℕ) (u : ℚ) (h0 : ∀ j, j < k → ps.getD j 0 = 0)
    (h1 : ps.getD k 0 = 1) (hk : k < ps.length) (hu0 : 0 ≤ u) (hu1 : u < 1) :
    cdfIndex ps u = k := by
  unfold cdfIndex
  rw [cdfIndexAux_point ps k 0 0 u h0 h1 hk hu0 (by linarith)]
  simp

/-- After a hard intervention the target has no parents by arcs. -/
lemma ghid_parents_of_target (d : DiscreteDAG) (target value : ℕ) :
    (d.get_hard_interventional_dag target value).graph.parents_of target = [] := by
  apply List.filter_eq_nil_iff.2
  intro p _
  simp only [DiscreteDAG.get_hard_interventional_dag, DiscreteDAG.graph, decide_eq_true_eq]
  intro hmem
  have := List.of_mem_filter hmem
  simp at this

/-- A node with no parents is a fixed point of the ancestor-closure step. -/
lemma ancestorsStep_singleton (g : Digraph) (t : ℕ) (h : g.parents_of t = []) :
    ancestorsStep g [t] = [t] := by
  simp [ancestorsStep, h]

/-- Iterating a function fixes its fixed points. -/
lemma iterN_fixed (f : List ℕ → List ℕ) (s : List ℕ) (h : f s = s) :
    ∀ n, iterN f n s = s := by
  intro n
  induction n with
  | zero => rfl
  | succ m ih => rw [iterN, h, ih]

/-- In a duplicate-free list, filtering for one member gives exactly it. -/
lemma filter_mem_singleton : ∀ (l : List ℕ) (a : ℕ), l.Nodup → a ∈ l →
    l.filter (fun n => n ∈ [a]) = [a] := by
  intro l
  induction l with
  | nil => intro a _ ha; simp at ha
  | cons b tl ih =>
    intro a hnd ha
    rw [List.filter_cons]
    by_cases hb : b = a
    · subst hb
      have htl : b ∉ tl := (List.nodup_cons.1 hnd).1
      have h0 : tl.filter (fun n => n ∈ [b]) = [] :=
        List.filter_eq_nil_iff.2 (fun x hx => by
          simp only [List.mem_singleton, decide_eq_true_eq]
          rintro rfl
          exact htl hx)
      simp only [h0]
      simp
    · have hatl : a ∈ tl := by
        rcases List.mem_cons.1 ha with h | h
        · exact absurd h.symm hb
        · exact h
      have hrec := ih a (List.nodup_cons.1 hnd).2 hatl
      simp only [List.mem_singleton] at hrec
      simp [hb, hrec]

/-- The ancestral subgraph of a parentless node is that node alone. -/
lemma ancestral_subgraph_singleton (g : Digraph) (t : ℕ)
    (hnd : g.nodes.Nodup) (hmem : t ∈ g.nodes) (hpar : g.parents_of t = [])
    (hnoin : ∀ a ∈ g.arcs, a.2 ≠ t) :
    g.ancestral_subgraph [t] = ⟨[t], []⟩ := by
  have hanc : ancestorsFrom g [t] = [t] :=
    iterN_fixed _ _ (ancestorsStep_singleton g t hpar) _
  show (⟨g.nodes.filter (fun n => n ∈ ancestorsFrom g [t]),
        g.arcs.filter (fun a => a.1 ∈ ancestorsFrom g [t] ∧ a.2 ∈ ancestorsFrom g [t])⟩ :
      Digraph) = ⟨[t], []⟩
  rw [hanc]
  have h1 : g.nodes.filter (fun n => n ∈ [t]) = [t] := filter_mem_singleton _ _ hnd hmem
  have h2 : g.arcs.filter (fun a => a.1 ∈ [t] ∧ a.2 ∈ [t]) = [] := by
    apply List.filter_eq_nil_iff.2
    intro a ha
    simp only [List.mem_singleton, decide_eq_true_eq, not_and]
    intro _
    exact hnoin a ha
  rw [h1, h2]

/-- The topological sort of a single parentless node. -/
lemma topological_sort_singleton (t : ℕ) :
    (Digraph.topological_sort ⟨[t], []⟩) = [t] := rfl

/-- The topological sort picks from the remaining nodes without repeats. -/
lemma topoAux_nodup_sub (g : Digraph) :
    ∀ (fuel : ℕ) (rem : List ℕ), rem.Nodup →
      (topoAux g fuel rem).Nodup ∧ ∀ x ∈ topoAux g fuel rem, x ∈ rem := by
  intro fuel
  induction fuel with
  | zero => intro rem _; exact ⟨List.nodup_nil, by simp [topoAux]⟩
  | succ m ih =>
    intro rem hrem
    rw [topoAux]
    cases hfind : rem.find? (fun n => (g.parents_of n).all (fun p => ¬ p ∈ rem)) with
    | none => exact ⟨List.nodup_nil, by simp⟩
    | some n =>
      have hn : n ∈ rem := List.mem_of_find?_eq_some hfind
      have hfil : (rem.filter (fun m => m ≠ n)).Nodup := List.Nodup.filter _ hrem
      obtain ⟨hnd2, hsub2⟩ := ih (rem.filter (fun m => m ≠ n)) hfil
      refine ⟨List.nodup_cons.2 ⟨fun hcon => ?_, hnd2⟩, ?_⟩
      · have := hsub2 n hcon
        simp at this
      · intro x hx
        rcases List.mem_cons.1 hx with rfl | hx2
        · exact hn
        · exact List.mem_of_mem_filter (hsub2 x hx2)

/-- Nodes not in the processed list keep their initial sample value. -/
lemma foldl_sampleStep_not_mem (d : DiscreteDAG) (u : ℕ → ℚ) (target : ℕ) :
    ∀ (l : List ℕ) (s0 : ℕ → ℕ), target ∉ l →
      (l.foldl (sampleStep d u) s0) target = s0 target := by
  intro l
  induction l with
  | nil => intro s0 _; rfl
  | cons a tl ih =>
    intro s0 hmem
    rw [List.foldl_cons]
    rw [ih _ (fun h => hmem (List.mem_cons.2 (Or.inr h)))]
    have hne : target ≠ a := fun h => hmem (h ▸ List.mem_cons_self a tl)
    simp [sampleStep, hne]

/-- If the step writes the constant `v` at `target` whatever the current
samples are, the fold over a duplicate-free list containing `target`
ends with `target ↦ v`. -/
lemma foldl_sampleStep_mem (d : DiscreteDAG) (u : ℕ → ℚ) (target v : ℕ)
    (hconst : ∀ s : ℕ → ℕ, sampleStep d u s target target = v) :
    ∀ (l : List ℕ) (s0 : ℕ → ℕ), l.Nodup → target ∈ l →
      (l.foldl (sampleStep d u) s0) target = v := by
  intro l
  induction l with
  | nil => intro s0 _ hmem; simp at hmem
  | cons a tl ih =>
    intro s0 hnd hmem
    rw [List.foldl_cons]
    rcases List.mem_cons.1 hmem with rfl | htl
    · rw [foldl_sampleStep_not_mem d u target tl _ (List.nodup_cons.1 hnd).1]
      exact hconst s0
    · exact ih _ (List.nodup_cons.1 hnd).2 htl

/-- `getD` through a mapped range. -/
lemma getD_map_range (n : ℕ) (f : ℕ → ℚ) (j : ℕ) (hj : j < n) :
    ((List.range n).map f).getD j 0 = f j := by
  rw [List.getD_eq_getElem _ 0 (by simpa using hj)]
  simp

/-- `np.random.choice` on a point-mass distribution returns the massed
value for every uniform draw in `[0, 1)`. -/
lemma np_random_choice_pointMass (alphabet : List ℕ) (value : ℕ) (u : ℚ)
    (hval : value ∈ alphabet) (hu0 : 0 ≤ u) (hu1 : u < 1) :
    np_random_choice alphabet (pointMass alphabet value) u = value := by
  unfold np_random_choice
  have hlt : alphabet.indexOf value < alphabet.length := List.indexOf_lt_length.2 hval
  have hcdf : cdfIndex ((List.range alphabet.length).map
      (fun i => (pointMass alphabet value).data [i])) u = alphabet.indexOf value := by
    apply cdfIndex_point
    · intro j hj
      rw [getD_map_range _ _ _ (by omega)]
      show (if alphabet.getD (([j] : List ℕ).getD 0 0) 0 = value then (1 : ℚ) else 0) = 0
      rw [if_neg]
      simpa using getD_ne_of_lt_indexOf hj
    · rw [getD_map_range _ _ _ hlt]
      show (if alphabet.getD
          (([alphabet.indexOf value] : List ℕ).getD 0 0) 0 = value then (1 : ℚ) else 0) = 1
      rw [if_pos]
      simpa using getD_indexOf_of_mem hval
    · simpa using hlt
    · exact hu0
    · exact hu1
  rw [hcdf]
  exact getD_indexOf_of_mem hval

/-- C2: after `get_hard_interventional_dag(target, v)`, `get_marginal`
of the target is the point mass at `v` — probability `1` at `v`'s
alphabet index, `0` elsewhere — and an ancestral sample of the new
network (for any per-node uniform draws in `[0,1)`) has value `v` at the
target. -/
theorem C2_hard_intervention_point_mass (d : DiscreteDAG) (target value : ℕ) (u : ℕ → ℚ)
    (hnodes : d.nodes.Nodup) (hmem : target ∈ d.nodes)
    (halpha : (d.node_alphabets target).Nodup)
    (hval : value ∈ d.node_alphabets target)
    (hu0 : 0 ≤ u target) (hu1 : u target < 1)
    (htopo : target ∈ (d.get_hard_interventional_dag target value).graph.topological_sort) :
    (∃ M, (d.get_hard_interventional_dag target value).get_marginal target = .ok M ∧
      M.shape = [(d.node_alphabets target).length] ∧
      M.data [(d.node_alphabets target).indexOf value] = 1 ∧
      ∀ i, i < (d.node_alphabets target).length →
        i ≠ (d.node_alphabets target).indexOf value → M.data [i] = 0) ∧
    sample1 (d.get_hard_interventional_dag target value) u target = value := by
  have hcond : (d.get_hard_interventional_dag target value).conditionals target
      = pointMass (d.node_alphabets target) value := by
    simp [DiscreteDAG.get_hard_interventional_dag]
  have hsub : (d.get_hard_interventional_dag target value).graph.ancestral_subgraph [target]
      = ⟨[target], []⟩ := by
    apply ancestral_subgraph_singleton
    · exact hnodes
    · exact hmem
    · exact ghid_parents_of_target d target value
    · intro a ha
      have := List.of_mem_filter ha
      simpa using this
  constructor
  · have hM : (d.get_hard_interventional_dag target value).get_marginal target
        = .ok (np_exp (no_warn_log
            ((d.get_hard_interventional_dag target value).conditionals target))) := by
      unfold DiscreteDAG.get_marginal
      rw [hsub]
      rfl
    refine ⟨_, hM, ?_, ?_, ?_⟩
    · rw [hcond]
      rfl
    · rw [hcond]
      show lexp (no_warn_logE (if (d.node_alphabets target).getD
          ((([(d.node_alphabets target).indexOf value] : List ℕ)).getD 0 0) 0 = value
            then (1 : ℚ) else 0)) = 1
      rw [if_pos (by simpa using getD_indexOf_of_mem hval)]
      show lexp (if eps < (1 : ℚ) then some (1 : ℚ) else none) = 1
      rw [if_pos (by norm_num [eps])]
      rfl
    · intro i hi hne
      rw [hcond]
      show lexp (no_warn_logE (if (d.node_alphabets target).getD
          (([i] : List ℕ).getD 0 0) 0 = value then (1 : ℚ) else 0)) = 0
      rw [if_neg (by simpa using getD_ne_of_nodup halpha hi hne)]
      show lexp (if eps < (0 : ℚ) then some (0 : ℚ) else none) = 0
      rw [if_neg (by norm_num [eps])]
      rfl
  · have hpar : (d.get_hard_interventional_dag target value).node2parents target = [] := by
      simp [DiscreteDAG.get_hard_interventional_dag]
    have hconst : ∀ s : ℕ → ℕ,
        sampleStep (d.get_hard_interventional_dag target value) u s target target = value := by
      intro s
      show (if target = target then _ else s target) = value
      rw [if_pos rfl]
      simp only [hpar, hcond, List.isEmpty_nil, if_true]
      exact np_random_choice_pointMass _ _ _ hval hu0 hu1
    have hndsort : (d.get_hard_interventional_dag target value).graph.topological_sort.Nodup := by
      unfold Digraph.topological_sort
      exact (topoAux_nodup_sub _ _ _ hnodes).1
    exact foldl_sampleStep_mem _ u target value hconst _ _ hndsort htopo

/-- C2 witness: intervening on node 2 of the collider network at value
1, with uniform draws fixed at `1/2`. -/
theorem C2_witness :
    (∃ M, ((colliderD.get_hard_interventional_dag 2 1).get_marginal 2) = .ok M ∧
      M.shape = [(colliderD.node_alphabets 2).length] ∧
      M.data [(colliderD.node_alphabets 2).indexOf 1] = 1 ∧
      ∀ i, i < (colliderD.node_alphabets 2).length →
        i ≠ (colliderD.node_alphabets 2).indexOf 1 → M.data [i] = 0) ∧
    sample1 (colliderD.get_hard_interventional_dag 2 1) (fun _ => 1/2) 2 = 1 :=
  C2_hard_intervention_point_mass colliderD 2 1 (fun _ => 1/2) (by decide) (by decide)
    (by decide) (by decide) (by with_unfolding_all decide) (by with_unfolding_all decide)
    (by decide)
/-- C10 witness: the frame theorem applied with a deliberately
mis-shaped CPT, which is stored unvalidated. -/
theorem C10_witness :
    (colliderD.set_conditional 0 ⟨[5], fun _ => 7⟩).conditionals 0 = ⟨[5], fun _ => 7⟩ ∧
    (1 : ℕ) ≠ 0 ∧
    (colliderD.set_conditional 0 ⟨[5], fun _ => 7⟩).conditionals 1 = colliderD.conditionals 1 :=
  ⟨(C10_set_conditional_frame colliderD 0 ⟨[5], fun _ => 7⟩).1, by decide,
   (C10_set_conditional_frame colliderD 0 ⟨[5], fun _ => 7⟩).2.1 1 (by decide)⟩

/-! ## Log-domain evaluation lemmas -/

/-- Two tensors with equal shapes and pointwise-equal data are equal. -/
lemma tensor_eq {α : Type} {s1 s2 : List ℕ} {d1 d2 : List ℕ → α}
    (hs : s1 = s2) (hd : ∀ idx, d1 idx = d2 idx) :
    (⟨s1, d1⟩ : Tensor α) = ⟨s2, d2⟩ := by
  subst hs
  have : d1 = d2 := funext hd
  rw [this]

/-- `exp` turns log-domain addition into multiplication. -/
lemma lexp_lmul (a b : LogQ) : lexp (lmul a b) = lexp a * lexp b := by
  cases a <;> cases b <;> simp [lmul, lexp]

/-- A zero-or-above-eps entry is nonnegative. -/
lemma dich_nonneg {x : ℚ} (h : x = 0 ∨ eps < x) : 0 ≤ x := by
  rcases h with h | h
  · rw [h]
  · have : (0 : ℚ) < eps := by norm_num [eps]
    linarith

/-- For zero-or-above-eps entries, exponentiating `no_warn_log` is the
identity (zeros pass through the `-inf` mask unchanged). -/
lemma lexp_no_warn_logE (x : ℚ) (h : x = 0 ∨ eps < x) : lexp (no_warn_logE x) = x := by
  unfold no_warn_logE
  rcases h with h | h
  · rw [h, if_neg (by norm_num [eps])]
    rfl
  · rw [if_pos h]
    rfl

/-- For nonnegative entries, exponentiating `np.log` is the identity. -/
lemma lexp_np_logE (x : ℚ) (h : 0 ≤ x) : lexp (np_logE x) = x := by
  unfold np_logE
  split
  · rfl
  · next hlt =>
      have : x = 0 := le_antisymm (not_lt.mp hlt) h
      rw [this]
      rfl

/-- For nonnegative sums, exponentiating `logsumexp` is the identity. -/
lemma lexp_lse (s : ℚ) (h : 0 ≤ s) : lexp (lse s) = s := by
  unfold lse
  split
  · rfl
  · next hlt =>
      have : s = 0 := le_antisymm (not_lt.mp hlt) h
      rw [this]
      rfl

/-- A nonnegative sum has `logsumexp = -inf` exactly when it is zero. -/
lemma lse_eq_none_iff (s : ℚ) (h : 0 ≤ s) : lse s = none ↔ s = 0 := by
  unfold lse
  split
  · next hpos =>
      constructor
      · intro hc
        exact absurd hc (by simp)
      · intro hc
        linarith
  · next hlt =>
      simp [le_antisymm (not_lt.mp hlt) h]

/-- `rsum` as a `Finset.range` sum. -/
lemma rsum_eq_finset (n : ℕ) (f : ℕ → ℚ) : rsum n f = ∑ i in Finset.range n, f i := by
  induction n with
  | zero => simp [rsum]
  | succ k ih =>
      rw [rsum, List.range_succ, List.map_append, List.sum_append, Finset.sum_range_succ,
        ← ih, rsum]
      simp

/-- `rsum` only depends on in-range values. -/
lemma rsum_congr (n : ℕ) (f g : ℕ → ℚ) (h : ∀ i, i < n → f i = g i) :
    rsum n f = rsum n g := by
  rw [rsum_eq_finset, rsum_eq_finset]
  exact Finset.sum_congr rfl (fun i hi => h i (Finset.mem_range.mp hi))

/-- `rsum` of in-range-nonnegative terms is nonnegative. -/
lemma rsum_nonneg (n : ℕ) (f : ℕ → ℚ) (h : ∀ i, i < n → 0 ≤ f i) : 0 ≤ rsum n f := by
  rw [rsum_eq_finset]
  exact Finset.sum_nonneg (fun i hi => h i (Finset.mem_range.mp hi))

/-- A sum of nonnegative terms vanishes iff every term vanishes. -/
lemma rsum_eq_zero_iff (n : ℕ) (f : ℕ → ℚ) (h : ∀ i, i < n → 0 ≤ f i) :
    rsum n f = 0 ↔ ∀ i, i < n → f i = 0 := by
  rw [rsum_eq_finset]
  rw [Finset.sum_eq_zero_iff_of_nonneg (fun i hi => h i (Finset.mem_range.mp hi))]
  constructor
  · intro hz i hi
    exact hz i (Finset.mem_range.mpr hi)
  · intro hz i hi
    exact hz i (Finset.mem_range.mp hi)

/-- Constants pull out of `rsum`. -/
lemma rsum_mul_left (n : ℕ) (c : ℚ) (f : ℕ → ℚ) :
    rsum n (fun i => c * f i) = c * rsum n f := by
  rw [rsum_eq_finset, rsum_eq_finset]
  exact (Finset.mul_sum _ _ _).symm

/-- Double `rsum`s commute. -/
lemma rsum_comm (n m : ℕ) (g : ℕ → ℕ → ℚ) :
    rsum n (fun i => rsum m (fun j => g i j)) = rsum m (fun j => rsum n (fun i => g i j)) := by
  have h1 : rsum n (fun i => rsum m (fun j => g i j))
      = ∑ i in Finset.range n, ∑ j in Finset.range m, g i j := by
    rw [rsum_eq_finset]
    exact Finset.sum_congr rfl (fun i _ => rsum_eq_finset _ _)
  have h2 : rsum m (fun j => rsum n (fun i => g i j))
      = ∑ j in Finset.range m, ∑ i in Finset.range n, g i j := by
    rw [rsum_eq_finset]
    exact Finset.sum_congr rfl (fun j _ => rsum_eq_finset _ _)
  rw [h1, h2, Finset.sum_comm]

/-- Indices of a rank-one shape. -/
lemma allIdx_single (n : ℕ) : allIdx [n] = (List.range n).map (fun i => [i]) := by
  simp [allIdx]
  induction (List.range n) with
  | nil => rfl
  | cons a l ih => simp [List.flatMap_cons, ih]

/-- A rank-one `sumIdx` is an `rsum`. -/
lemma sumIdx_single (n : ℕ) (g : List ℕ → ℚ) :
    sumIdx [n] g = rsum n (fun i => g [i]) := by
  rw [sumIdx, allIdx_single, rsum, List.map_map]
  rfl

/-- Index merge for summing axis 0 of a rank-2 array. -/
lemma mergeIdx_0_2 (r s : List ℕ) : mergeIdx [0] 2 r s = [s.getD 0 0, r.getD 0 0] := by
  unfold mergeIdx
  rw [show (List.range 2) = [0, 1] from by decide]
  simp
  rw [show (List.countP (fun q => !decide (q = 0)) (List.range 1)) = 0 from by decide]

/-- Index merge for summing axis 1 of a rank-3 array. -/
lemma mergeIdx_1_3 (r s : List ℕ) :
    mergeIdx [1] 3 r s = [r.getD 0 0, s.getD 0 0, r.getD 1 0] := by
  unfold mergeIdx
  rw [show (List.range 3) = [0, 1, 2] from by decide]
  simp
  constructor
  · rw [show (List.countP (fun q => decide (q = 1)) (List.range 1)) = 0 from by decide]
  · rw [show (List.countP (fun q => !decide (q = 1)) (List.range 2)) = 1 from by decide]

/-- Summed dimensions when eliminating axis 0 of a rank-2 array. -/
lemma sumdims_two_0 (d0 d1 : ℕ) :
    ((((List.range 2).zip [d0, d1]).filter (fun pz => pz.1 ∈ [0])).map (fun pz => pz.2))
      = [d0] := by
  rw [show (List.range 2) = [0, 1] from by decide]
  simp

/-- Kept dimensions when eliminating axis 0 of a rank-2 array. -/
lemma keepdims_two_0 (d0 d1 : ℕ) :
    ((((List.range 2).zip [d0, d1]).filter (fun pz => ¬ pz.1 ∈ [0])).map (fun pz => pz.2))
      = [d1] := by
  rw [show (List.range 2) = [0, 1] from by decide]
  simp

/-- Summed dimensions when eliminating axis 1 of a rank-3 array. -/
lemma sumdims_three_1 (d0 d1 d2 : ℕ) :
    ((((List.range 3).zip [d0, d1, d2]).filter (fun pz => pz.1 ∈ [1])).map (fun pz => pz.2))
      = [d1] := by
  rw [show (List.range 3) = [0, 1, 2] from by decide]
  simp

/-- Kept dimensions when eliminating axis 1 of a rank-3 array. -/
lemma keepdims_three_1 (d0 d1 d2 : ℕ) :
    ((((List.range 3).zip [d0, d1, d2]).filter (fun pz => ¬ pz.1 ∈ [1])).map (fun pz => pz.2))
      = [d0, d2] := by
  rw [show (List.range 3) = [0, 1, 2] from by decide]
  simp

/-- Entry of a rank-2 array marginalized over axis 0. -/
lemma marg0_data (T : Tensor LogQ) (d0 d1 : ℕ) (hs : T.shape = [d0, d1]) (y : ℕ) :
    (marginalize T [0]).data [y] = lse (rsum d0 (fun i => lexp (T.data [i, y]))) := by
  rw [marginalize_data, hs]
  rw [show ([d0, d1] : List ℕ).length = 2 from rfl]
  rw [sumdims_two_0, sumIdx_single]
  simp only [mergeIdx_0_2, List.getD_cons_zero]

/-- Shape of a rank-2 array marginalized over axis 0. -/
lemma marg0_shape (T : Tensor LogQ) (d0 d1 : ℕ) (hs : T.shape = [d0, d1]) :
    (marginalize T [0]).shape = [d1] := by
  rw [marginalize_shape, hs]
  rw [show ([d0, d1] : List ℕ).length = 2 from rfl]
  exact keepdims_two_0 d0 d1

/-- Entry of a rank-3 array marginalized over axis 1. -/
lemma marg1_data3 (T : Tensor LogQ) (d0 d1 d2 : ℕ) (hs : T.shape = [d0, d1, d2]) (x z : ℕ) :
    (marginalize T [1]).data [x, z] = lse (rsum d1 (fun j => lexp (T.data [x, j, z]))) := by
  rw [marginalize_data, hs]
  rw [show ([d0, d1, d2] : List ℕ).length = 3 from rfl]
  rw [sumdims_three_1, sumIdx_single]
  simp only [mergeIdx_1_3, List.getD_cons_zero, List.getD_cons_succ]

/-- Shape of a rank-3 array marginalized over axis 1. -/
lemma marg1_shape3 (T : Tensor LogQ) (d0 d1 d2 : ℕ) (hs : T.shape = [d0, d1, d2]) :
    (marginalize T [1]).shape = [d0, d2] := by
  rw [marginalize_shape, hs]
  rw [show ([d0, d1, d2] : List ℕ).length = 3 from rfl]
  exact keepdims_three_1 d0 d1 d2

section Chain

variable (a0 a1 a2 : List ℕ) (f0 : ℕ → ℚ) (f1 f2 : ℕ → ℕ → ℚ)

/-- Shorthand for the chain's root CPT tensor. -/
def chC0 : Tensor ℚ := ⟨[a0.length], fun idx => f0 (idx.getD 0 0)⟩

/-- Shorthand for the chain's middle CPT tensor. -/
def chC1 : Tensor ℚ := ⟨[a0.length, a1.length], fun idx => f1 (idx.getD 0 0) (idx.getD 1 0)⟩

/-- Shorthand for the chain's leaf CPT tensor. -/
def chC2 : Tensor ℚ := ⟨[a1.length, a2.length], fun idx => f2 (idx.getD 0 0) (idx.getD 1 0)⟩

lemma chain3_graph : (chain3 a0 a1 a2 f0 f1 f2).graph = ⟨[0, 1, 2], [(0, 1), (1, 2)]⟩ := rfl

lemma chain3_cond0 : (chain3 a0 a1 a2 f0 f1 f2).conditionals 0 = chC0 a0 f0 := rfl

lemma chain3_cond1 : (chain3 a0 a1 a2 f0 f1 f2).conditionals 1 = chC1 a0 a1 f1 := rfl

lemma chain3_cond2 : (chain3 a0 a1 a2 f0 f1 f2).conditionals 2 = chC2 a1 a2 f2 := rfl

lemma chain3_parents1 : (chain3 a0 a1 a2 f0 f1 f2).node2parents 1 = [0] := rfl

lemma chain3_parents2 : (chain3 a0 a1 a2 f0 f1 f2).node2parents 2 = [1] := rfl

/-- Trace of `get_marginal 1` on the chain: fold in node 1's CPT, sum
out node 0, exponentiate. -/
lemma chain_gm1 :
    (chain3 a0 a1 a2 f0 f1 f2).get_marginal 1
      = .ok (np_exp (marginalize
          (addvarT (no_warn_log (chC0 a0 f0)) [0] (chC1 a0 a1 f1)
            (chain3 a0 a1 a2 f0 f1 f2).node2dims [0]) [0])) := by
  unfold DiscreteDAG.get_marginal
  have hsub : (chain3 a0 a1 a2 f0 f1 f2).graph.ancestral_subgraph [1]
      = ⟨[0, 1], [(0, 1)]⟩ := by
    rw [chain3_graph]
    decide
  rw [hsub]
  dsimp only
  rw [show (Digraph.topological_sort ⟨[0, 1], [(0, 1)]⟩) = [0, 1] from by decide]
  dsimp only
  rw [List.foldl_cons, List.foldl_nil]
  dsimp only
  unfold gm_step1
  rw [chain3_cond1, chain3_parents1]
  rw [add_variable_ok _ _ _ _ _ (by simp [chC1]) (by decide)]
  dsimp only
  rw [show ([0] ++ [1] : List ℕ).filter (fun n =>
      (((Digraph.children_of ⟨[0, 1], [(0, 1)]⟩ n).all (fun c => c ∈ [0] ++ [1])) ∧ n ≠ 1))
      = [0] from by decide]
  rw [chain3_cond0]
  simp

/-- Trace of `get_marginal 0` on the chain: the root's log CPT alone. -/
lemma chain_gm0 :
    (chain3 a0 a1 a2 f0 f1 f2).get_marginal 0
      = .ok (np_exp (no_warn_log (chC0 a0 f0))) := by
  unfold DiscreteDAG.get_marginal
  have hsub : (chain3 a0 a1 a2 f0 f1 f2).graph.ancestral_subgraph [0]
      = ⟨[0], []⟩ := by
    rw [chain3_graph]
    decide
  rw [hsub]
  try dsimp only
  rw [show (Digraph.topological_sort ⟨[0], []⟩) = [0] from by decide]
  try dsimp only
  rw [List.foldl_nil]
  try dsimp only
  rw [chain3_cond0]

/-- Trace of `get_marginal 2` on the chain: fold in node 1, sum out
node 0, fold in node 2, sum out node 1, exponentiate. -/
lemma chain_gm2 :
    (chain3 a0 a1 a2 f0 f1 f2).get_marginal 2
      = .ok (np_exp (marginalize
          (addvarT (marginalize
              (addvarT (no_warn_log (chC0 a0 f0)) [0] (chC1 a0 a1 f1)
                (chain3 a0 a1 a2 f0 f1 f2).node2dims [0]) [0])
            [1] (chC2 a1 a2 f2) (chain3 a0 a1 a2 f0 f1 f2).node2dims [1]) [0])) := by
  unfold DiscreteDAG.get_marginal
  have hsub : (chain3 a0 a1 a2 f0 f1 f2).graph.ancestral_subgraph [2]
      = ⟨[0, 1, 2], [(0, 1), (1, 2)]⟩ := by
    rw [chain3_graph]
    decide
  rw [hsub]
  try dsimp only
  rw [show (Digraph.topological_sort ⟨[0, 1, 2], [(0, 1), (1, 2)]⟩) = [0, 1, 2] from by decide]
  try dsimp only
  rw [List.foldl_cons, List.foldl_cons, List.foldl_nil]
  try dsimp only
  unfold gm_step1
  rw [chain3_cond1, chain3_parents1]
  rw [add_variable_ok _ _ _ _ _ (by simp [chC1]) (by decide)]
  try dsimp only
  rw [show ([0] ++ [1] : List ℕ).filter (fun n =>
      (((Digraph.children_of ⟨[0, 1, 2], [(0, 1), (1, 2)]⟩ n).all
        (fun c => c ∈ [0] ++ [1])) ∧ n ≠ 1)) = [0] from by decide]
  rw [chain3_cond0]
  rw [show ([0] : List ℕ).isEmpty = false from by decide]
  simp only [Bool.false_eq_true, if_false]
  rw [show (([0] : List ℕ).any fun n => decide (¬ n ∈ [0])) = false from by decide]
  simp only [Bool.false_eq_true, if_false]
  rw [show (([0] ++ [1] : List ℕ).filter (fun n => ¬ n ∈ [0])) = [1] from by decide,
    show (([0] : List ℕ).map (fun n => List.indexOf n [0])) = [0] from by decide]
  rw [chain3_cond2, chain3_parents2]
  rw [add_variable_ok _ _ _ _ _ (by simp [chC2]) (by decide)]
  try dsimp only
  rw [show ([1] ++ [2] : List ℕ).filter (fun n =>
      (((Digraph.children_of ⟨[0, 1, 2], [(0, 1), (1, 2)]⟩ n).all
        (fun c => c ∈ [0] ++ [1] ++ [2])) ∧ n ≠ 2)) = [1] from by decide]
  simp

/-- Trace of the `get_marginals_new` loop on the chain for a target set
containing both 0 and 1 (ancestral subgraph `{0,1}`). -/
lemma chain_gmn_loop01 (ms : List ℕ) (h0 : 0 ∈ ms) (h1 : 1 ∈ ms) :
    gmn_loop (chain3 a0 a1 a2 f0 f1 f2) ⟨[0, 1], [(0, 1)]⟩ ms [0, 1] 0
      = .ok ([0, 1], addvarT (np_log (chC0 a0 f0)) [0] (chC1 a0 a1 f1)
          (chain3 a0 a1 a2 f0 f1 f2).node2dims [0]) := by
  unfold gmn_loop
  rw [List.foldl_cons, List.foldl_cons, List.foldl_nil]
  try dsimp only
  unfold gmn_step
  rw [show ((Digraph.children_of ⟨[0, 1], [(0, 1)]⟩ 0).filter (fun c => ¬ c ∈ [0]))
      = [1] from by decide]
  try dsimp only
  rw [List.foldl_cons, List.foldl_nil]
  try dsimp only
  rw [chain3_cond1, chain3_parents1]
  rw [show (([0] : List ℕ).filter (fun p => p ∈ [0])) = [0] from by decide]
  rw [add_variable_ok _ _ _ _ _ (by simp [chC1]) (by decide)]
  try dsimp only
  rw [chain3_cond0]
  rw [if_neg (not_not_intro h0)]
  try dsimp only
  rw [show ((Digraph.children_of ⟨[0, 1], [(0, 1)]⟩ 1).filter
      (fun c => ¬ c ∈ [0] ++ [1])) = [] from by decide]
  try dsimp only
  rw [List.foldl_nil]
  try dsimp only
  rw [if_neg (not_not_intro h1)]
  simp

/-- Trace of the `get_marginals_new` loop on the chain for a target set
containing 0 and 2 but not 1: node 1 is summed out. -/
lemma chain_gmn_loop02 (ms : List ℕ) (h0 : 0 ∈ ms) (h1 : ¬ 1 ∈ ms) (h2 : 2 ∈ ms) :
    gmn_loop (chain3 a0 a1 a2 f0 f1 f2) ⟨[0, 1, 2], [(0, 1), (1, 2)]⟩ ms [0, 1, 2] 0
      = .ok ([0, 2], marginalize
          (addvarT (addvarT (np_log (chC0 a0 f0)) [0] (chC1 a0 a1 f1)
              (chain3 a0 a1 a2 f0 f1 f2).node2dims [0])
            [0, 1] (chC2 a1 a2 f2) (chain3 a0 a1 a2 f0 f1 f2).node2dims [1]) [1]) := by
  unfold gmn_loop
  rw [List.foldl_cons, List.foldl_cons, List.foldl_cons, List.foldl_nil]
  try dsimp only
  unfold gmn_step
  rw [show ((Digraph.children_of ⟨[0, 1, 2], [(0, 1), (1, 2)]⟩ 0).filter
      (fun c => ¬ c ∈ [0])) = [1] from by decide]
  try dsimp only
  rw [List.foldl_cons, List.foldl_nil]
  try dsimp only
  rw [chain3_cond1, chain3_parents1]
  rw [show (([0] : List ℕ).filter (fun p => p ∈ [0])) = [0] from by decide]
  rw [add_variable_ok _ _ _ _ _ (by simp [chC1]) (by decide)]
  try dsimp only
  rw [chain3_cond0]
  rw [if_neg (not_not_intro h0)]
  try dsimp only
  rw [show ((Digraph.children_of ⟨[0, 1, 2], [(0, 1), (1, 2)]⟩ 1).filter
      (fun c => ¬ c ∈ [0] ++ [1])) = [2] from by decide]
  try dsimp only
  rw [List.foldl_cons, List.foldl_nil]
  try dsimp only
  rw [chain3_cond2, chain3_parents2]
  rw [show (([1] : List ℕ).filter (fun p => p ∈ [0] ++ [1])) = [1] from by decide]
  rw [add_variable_ok _ _ _ _ _ (by simp [chC2]) (by decide)]
  try dsimp only
  rw [if_pos h1]
  rw [if_neg (by decide : ¬ ¬ (1 : ℕ) ∈ [0] ++ [1] ++ [2])]
  try dsimp only
  rw [show ((Digraph.children_of ⟨[0, 1, 2], [(0, 1), (1, 2)]⟩ 2).filter
      (fun c => ¬ c ∈ (([0] ++ [1] ++ [2] : List ℕ).filter (fun n => n ≠ 1))))
      = [] from by decide]
  try dsimp only
  rw [List.foldl_nil]
  try dsimp only
  rw [if_neg (not_not_intro h2)]
  rw [show (([0] ++ [1] ++ [2] : List ℕ).filter (fun n => n ≠ 1)) = [0, 2] from by decide,
    show (List.indexOf 1 ([0] ++ [1] ++ [2] : List ℕ)) = 1 from by decide]
  rfl

/-- Trace of the `get_marginals_new` loop on the chain for a target set
containing 1 and 2 but not 0: node 0 is summed out. -/
lemma chain_gmn_loop12 (ms : List ℕ) (h0 : ¬ 0 ∈ ms) (h1 : 1 ∈ ms) (h2 : 2 ∈ ms) :
    gmn_loop (chain3 a0 a1 a2 f0 f1 f2) ⟨[0, 1, 2], [(0, 1), (1, 2)]⟩ ms [0, 1, 2] 0
      = .ok ([1, 2], addvarT
          (marginalize (addvarT (np_log (chC0 a0 f0)) [0] (chC1 a0 a1 f1)
              (chain3 a0 a1 a2 f0 f1 f2).node2dims [0]) [0])
          [1] (chC2 a1 a2 f2) (chain3 a0 a1 a2 f0 f1 f2).node2dims [1]) := by
  unfold gmn_loop
  rw [List.foldl_cons, List.foldl_cons, List.foldl_cons, List.foldl_nil]
  try dsimp only
  unfold gmn_step
  rw [show ((Digraph.children_of ⟨[0, 1, 2], [(0, 1), (1, 2)]⟩ 0).filter
      (fun c => ¬ c ∈ [0])) = [1] from by decide]
  try dsimp only
  rw [List.foldl_cons, List.foldl_nil]
  try dsimp only
  rw [chain3_cond1, chain3_parents1]
  rw [show (([0] : List ℕ).filter (fun p => p ∈ [0])) = [0] from by decide]
  rw [add_variable_ok _ _ _ _ _ (by simp [chC1]) (by decide)]
  try dsimp only
  rw [chain3_cond0]
  rw [if_pos h0]
  rw [if_neg (by decide : ¬ ¬ (0 : ℕ) ∈ [0] ++ [1])]
  rw [show (([0] ++ [1] : List ℕ).filter (fun n => n ≠ 0)) = [1] from by decide,
    show (List.indexOf 0 ([0] ++ [1] : List ℕ)) = 0 from by decide]
  try dsimp only
  rw [show ((Digraph.children_of ⟨[0, 1, 2], [(0, 1), (1, 2)]⟩ 1).filter
      (fun c => ¬ c ∈ [1])) = [2] from by decide]
  try dsimp only
  rw [List.foldl_cons, List.foldl_nil]
  try dsimp only
  rw [chain3_cond2, chain3_parents2]
  rw [show (([1] : List ℕ).filter (fun p => p ∈ [1])) = [1] from by decide]
  rw [add_variable_ok _ _ _ _ _ (by simp [chC2]) (by decide)]
  try dsimp only
  rw [if_neg (not_not_intro h1)]
  try dsimp only
  rw [show ((Digraph.children_of ⟨[0, 1, 2], [(0, 1), (1, 2)]⟩ 2).filter
      (fun c => ¬ c ∈ [1] ++ [2])) = [] from by decide]
  try dsimp only
  rw [List.foldl_nil]
  try dsimp only
  rw [if_neg (not_not_intro h2)]
  simp

/-- The exact marginal of chain node 1. -/
def chM1 : ℕ → ℚ := fun y => rsum a0.length (fun x => f0 x * f1 x y)

/-- The exact joint of chain nodes 0 and 2. -/
def chJ02 : ℕ → ℕ → ℚ := fun x z => rsum a1.length (fun y => f0 x * f1 x y * f2 y z)

/-- The exact marginal of chain node 2. -/
def chM2 : ℕ → ℚ := fun z => rsum a1.length (fun y => chM1 a0 f0 f1 y * f2 y z)

lemma chM1_def (y : ℕ) : chM1 a0 f0 f1 y = rsum a0.length (fun x => f0 x * f1 x y) := rfl

lemma chJ02_def (x z : ℕ) :
    chJ02 a1 f0 f1 f2 x z = rsum a1.length (fun y => f0 x * f1 x y * f2 y z) := rfl

lemma chM2_def (z : ℕ) :
    chM2 a0 a1 f0 f1 f2 z = rsum a1.length (fun y => chM1 a0 f0 f1 y * f2 y z) := rfl

/-- Shape of the running table after folding node 1 into a rank-1 root. -/
lemma chT01_shape (t0 : Tensor LogQ) (dims : ℕ → ℕ) (h : t0.shape = [a0.length]) :
    (addvarT t0 [0] (chC1 a0 a1 f1) dims [0]).shape = [a0.length, a1.length] := by
  rw [addvarT_shape, h]
  simp [chC1]

/-- Entry of the running table after folding node 1 into a rank-1 root. -/
lemma chT01_data (t0 : Tensor LogQ) (dims : ℕ → ℕ) (h : t0.shape = [a0.length]) (x y : ℕ) :
    (addvarT t0 [0] (chC1 a0 a1 f1) dims [0]).data [x, y]
      = lmul (t0.data [x]) (no_warn_logE (f1 x y)) := by
  rw [addvarT_data, h]
  rfl

/-- Shape of the running table after folding node 2 into a rank-1 table
over node 1. -/
lemma chT12_shape (t1 : Tensor LogQ) (dims : ℕ → ℕ) (h : t1.shape = [a1.length]) :
    (addvarT t1 [1] (chC2 a1 a2 f2) dims [1]).shape = [a1.length, a2.length] := by
  rw [addvarT_shape, h]
  simp [chC2]

/-- Entry of the running table after folding node 2 into a rank-1 table
over node 1. -/
lemma chT12_data (t1 : Tensor LogQ) (dims : ℕ → ℕ) (h : t1.shape = [a1.length]) (y z : ℕ) :
    (addvarT t1 [1] (chC2 a1 a2 f2) dims [1]).data [y, z]
      = lmul (t1.data [y]) (no_warn_logE (f2 y z)) := by
  rw [addvarT_data, h]
  rfl

/-- Shape of the running table after folding node 2 into a rank-2 table
over nodes 0 and 1. -/
lemma chT02i_shape (t : Tensor LogQ) (dims : ℕ → ℕ) (h : t.shape = [a0.length, a1.length]) :
    (addvarT t [0, 1] (chC2 a1 a2 f2) dims [1]).shape
      = [a0.length, a1.length, a2.length] := by
  rw [addvarT_shape, h]
  simp [chC2]

/-- Entry of the running table after folding node 2 into a rank-2 table
over nodes 0 and 1. -/
lemma chT02i_data (t : Tensor LogQ) (dims : ℕ → ℕ) (h : t.shape = [a0.length, a1.length])
    (x y z : ℕ) :
    (addvarT t [0, 1] (chC2 a1 a2 f2) dims [1]).data [x, y, z]
      = lmul (t.data [x, y]) (no_warn_logE (f2 y z)) := by
  rw [addvarT_data, h]
  rfl

/-- Exponentiated entry of the `no_warn_log` root table. -/
lemma chC0w_lexp (hf0 : ∀ x, x < a0.length → f0 x = 0 ∨ eps < f0 x)
    (x : ℕ) (hx : x < a0.length) :
    lexp ((no_warn_log (chC0 a0 f0)).data [x]) = f0 x := by
  show lexp (no_warn_logE (f0 x)) = f0 x
  exact lexp_no_warn_logE _ (hf0 x hx)

/-- Exponentiated entry of the `np.log` root table. -/
lemma chC0n_lexp (hf0 : ∀ x, x < a0.length → f0 x = 0 ∨ eps < f0 x)
    (x : ℕ) (hx : x < a0.length) :
    lexp ((np_log (chC0 a0 f0)).data [x]) = f0 x := by
  show lexp (np_logE (f0 x)) = f0 x
  exact lexp_np_logE _ (dich_nonneg (hf0 x hx))

/-- `chM1` is nonnegative on the alphabet of node 1. -/
lemma chM1_nonneg (hf0 : ∀ x, x < a0.length → f0 x = 0 ∨ eps < f0 x)
    (hf1 : ∀ x, x < a0.length → ∀ y, y < a1.length → f1 x y = 0 ∨ eps < f1 x y)
    (y : ℕ) (hy : y < a1.length) : 0 ≤ chM1 a0 f0 f1 y :=
  rsum_nonneg _ _ (fun i hi =>
    mul_nonneg (dich_nonneg (hf0 i hi)) (dich_nonneg (hf1 i hi y hy)))

/-- `chJ02` is nonnegative on the alphabets of nodes 0 and 2. -/
lemma chJ02_nonneg (hf0 : ∀ x, x < a0.length → f0 x = 0 ∨ eps < f0 x)
    (hf1 : ∀ x, x < a0.length → ∀ y, y < a1.length → f1 x y = 0 ∨ eps < f1 x y)
    (hf2 : ∀ y, y < a1.length → ∀ z, z < a2.length → f2 y z = 0 ∨ eps < f2 y z)
    (x : ℕ) (hx : x < a0.length) (z : ℕ) (hz : z < a2.length) :
    0 ≤ chJ02 a1 f0 f1 f2 x z :=
  rsum_nonneg _ _ (fun y hy =>
    mul_nonneg (mul_nonneg (dich_nonneg (hf0 x hx)) (dich_nonneg (hf1 x hx y hy)))
      (dich_nonneg (hf2 y hy z hz)))

/-- `chM2` is nonnegative on the alphabet of node 2. -/
lemma chM2_nonneg (hf0 : ∀ x, x < a0.length → f0 x = 0 ∨ eps < f0 x)
    (hf1 : ∀ x, x < a0.length → ∀ y, y < a1.length → f1 x y = 0 ∨ eps < f1 x y)
    (hf2 : ∀ y, y < a1.length → ∀ z, z < a2.length → f2 y z = 0 ∨ eps < f2 y z)
    (z : ℕ) (hz : z < a2.length) : 0 ≤ chM2 a0 a1 f0 f1 f2 z :=
  rsum_nonneg _ _ (fun y hy =>
    mul_nonneg (chM1_nonneg a0 a1 f0 f1 hf0 hf1 y hy) (dich_nonneg (hf2 y hy z hz)))

/-- Eliminating node 0 from the rank-2 running table yields the exact
node-1 log marginal, for either root logarithm. -/
lemma chain_M1_eval (t0 : Tensor LogQ) (dims : ℕ → ℕ)
    (h0 : t0.shape = [a0.length])
    (hd : ∀ x, x < a0.length → lexp (t0.data [x]) = f0 x)
    (hf1 : ∀ x, x < a0.length → ∀ y, y < a1.length → f1 x y = 0 ∨ eps < f1 x y)
    (y : ℕ) (hy : y < a1.length) :
    (marginalize (addvarT t0 [0] (chC1 a0 a1 f1) dims [0]) [0]).data [y]
      = lse (chM1 a0 f0 f1 y) := by
  rw [marg0_data _ a0.length a1.length (chT01_shape _ _ _ t0 dims h0) y]
  congr 1
  rw [chM1_def]
  apply rsum_congr
  intro i hi
  rw [chT01_data _ _ _ t0 dims h0 i y, lexp_lmul, hd i hi,
    lexp_no_warn_logE _ (hf1 i hi y hy)]

/-- Eliminating node 1 from the rank-2 running table over nodes 1 and 2
yields the exact node-2 log marginal. -/
lemma chain_M2_eval (t1 : Tensor LogQ) (dims : ℕ → ℕ)
    (h1 : t1.shape = [a1.length])
    (hd : ∀ y, y < a1.length → t1.data [y] = lse (chM1 a0 f0 f1 y))
    (hf0 : ∀ x, x < a0.length → f0 x = 0 ∨ eps < f0 x)
    (hf1 : ∀ x, x < a0.length → ∀ y, y < a1.length → f1 x y = 0 ∨ eps < f1 x y)
    (hf2 : ∀ y, y < a1.length → ∀ z, z < a2.length → f2 y z = 0 ∨ eps < f2 y z)
    (z : ℕ) (hz : z < a2.length) :
    (marginalize (addvarT t1 [1] (chC2 a1 a2 f2) dims [1]) [0]).data [z]
      = lse (chM2 a0 a1 f0 f1 f2 z) := by
  rw [marg0_data _ a1.length a2.length (chT12_shape _ _ _ t1 dims h1) z]
  congr 1
  rw [chM2_def]
  apply rsum_congr
  intro y hy
  rw [chT12_data _ _ _ t1 dims h1 y z, lexp_lmul, hd y hy,
    lexp_lse _ (chM1_nonneg a0 a1 f0 f1 hf0 hf1 y hy),
    lexp_no_warn_logE _ (hf2 y hy z hz)]

/-- Eliminating node 1 from the rank-3 running table yields the exact
log joint of nodes 0 and 2. -/
lemma chain_J02_eval (t01 : Tensor LogQ) (dims : ℕ → ℕ)
    (h : t01.shape = [a0.length, a1.length])
    (hd : ∀ x, x < a0.length → ∀ y, y < a1.length → lexp (t01.data [x, y]) = f0 x * f1 x y)
    (hf2 : ∀ y, y < a1.length → ∀ z, z < a2.length → f2 y z = 0 ∨ eps < f2 y z)
    (x : ℕ) (hx : x < a0.length) (z : ℕ) (hz : z < a2.length) :
    (marginalize (addvarT t01 [0, 1] (chC2 a1 a2 f2) dims [1]) [1]).data [x, z]
      = lse (chJ02 a1 f0 f1 f2 x z) := by
  rw [marg1_data3 _ a0.length a1.length a2.length (chT02i_shape _ _ _ _ t01 dims h) x z]
  congr 1
  rw [chJ02_def]
  apply rsum_congr
  intro y hy
  rw [chT02i_data _ _ _ _ t01 dims h x y z, lexp_lmul, hd x hx y hy,
    lexp_no_warn_logE _ (hf2 y hy z hz)]

/-- Exponentiated entry of the rank-2 running table with `np.log` root. -/
lemma chT01n_lexp (dims : ℕ → ℕ)
    (hf0 : ∀ x, x < a0.length → f0 x = 0 ∨ eps < f0 x)
    (hf1 : ∀ x, x < a0.length → ∀ y, y < a1.length → f1 x y = 0 ∨ eps < f1 x y)
    (x : ℕ) (hx : x < a0.length) (y : ℕ) (hy : y < a1.length) :
    lexp ((addvarT (np_log (chC0 a0 f0)) [0] (chC1 a0 a1 f1) dims [0]).data [x, y])
      = f0 x * f1 x y := by
  rw [chT01_data _ _ _ (np_log (chC0 a0 f0)) dims rfl x y, lexp_lmul,
    chC0n_lexp _ _ hf0 x hx, lexp_no_warn_logE _ (hf1 x hx y hy)]

lemma chain3_dims0 : (chain3 a0 a1 a2 f0 f1 f2).node2dims 0 = a0.length := rfl

lemma chain3_dims1 : (chain3 a0 a1 a2 f0 f1 f2).node2dims 1 = a1.length := rfl

lemma chain3_dims2 : (chain3 a0 a1 a2 f0 f1 f2).node2dims 2 = a2.length := rfl

/-- The elimination table produced by the `get_marginals_new` loop for
targets containing 0 and 1. -/
def chT01n : Tensor LogQ :=
  addvarT (np_log (chC0 a0 f0)) [0] (chC1 a0 a1 f1)
    (chain3 a0 a1 a2 f0 f1 f2).node2dims [0]

/-- The elimination table produced by the `get_marginals_new` loop for
targets containing 0 and 2 but not 1. -/
def chT02n : Tensor LogQ :=
  marginalize (addvarT (chT01n a0 a1 a2 f0 f1 f2) [0, 1] (chC2 a1 a2 f2)
    (chain3 a0 a1 a2 f0 f1 f2).node2dims [1]) [1]

/-- The elimination table produced by the `get_marginals_new` loop for
targets containing 1 and 2 but not 0. -/
def chT12n : Tensor LogQ :=
  addvarT (marginalize (chT01n a0 a1 a2 f0 f1 f2) [0]) [1] (chC2 a1 a2 f2)
    (chain3 a0 a1 a2 f0 f1 f2).node2dims [1]

/-- The joint table `get_marginals_new(log=True)` returns for `[0, 1]`. -/
def chF01 : Tensor LogQ :=
  ⟨[a0.length, a1.length],
   fun idx => (chT01n a0 a1 a2 f0 f1 f2).data [idx.getD 0 0, idx.getD 1 0]⟩

/-- The joint table `get_marginals_new(log=True)` returns for `[1, 0]`. -/
def chF10 : Tensor LogQ :=
  ⟨[a1.length, a0.length],
   fun idx => (chT01n a0 a1 a2 f0 f1 f2).data [idx.getD 1 0, idx.getD 0 0]⟩

/-- The joint table `get_marginals_new(log=True)` returns for `[0, 2]`. -/
def chF02 : Tensor LogQ :=
  ⟨[a0.length, a2.length],
   fun idx => (chT02n a0 a1 a2 f0 f1 f2).data [idx.getD 0 0, idx.getD 1 0]⟩

/-- The joint table `get_marginals_new(log=True)` returns for `[2, 0]`. -/
def chF20 : Tensor LogQ :=
  ⟨[a2.length, a0.length],
   fun idx => (chT02n a0 a1 a2 f0 f1 f2).data [idx.getD 1 0, idx.getD 0 0]⟩

/-- The joint table `get_marginals_new(log=True)` returns for `[1, 2]`. -/
def chF12 : Tensor LogQ :=
  ⟨[a1.length, a2.length],
   fun idx => (chT12n a0 a1 a2 f0 f1 f2).data [idx.getD 0 0, idx.getD 1 0]⟩

/-- The joint table `get_marginals_new(log=True)` returns for `[2, 1]`. -/
def chF21 : Tensor LogQ :=
  ⟨[a2.length, a1.length],
   fun idx => (chT12n a0 a1 a2 f0 f1 f2).data [idx.getD 1 0, idx.getD 0 0]⟩

/-- The conditional table `get_conditional` builds from a joint log
table whose first axis holds the single (non-repeated) marginal node:
entries with `-inf` conditioning marginal become uniform `1/sz`. -/
def chCondT (F : Tensor LogQ) (sz : ℚ) : Tensor ℚ :=
  ⟨F.shape, fun idx =>
    if (marginalize F [0]).data (idx.drop 1) = none then 1 / sz
    else lexp (F.data idx) / lexp ((marginalize F [0]).data (idx.drop 1))⟩

/-- Entry of the generic conditional table. -/
lemma chCondT_data (F : Tensor LogQ) (sz : ℚ) (x y : ℕ) :
    (chCondT F sz).data [x, y]
      = if (marginalize F [0]).data [y] = none then 1 / sz
        else lexp (F.data [x, y]) / lexp ((marginalize F [0]).data [y]) := rfl

lemma chT01n_shape : (chT01n a0 a1 a2 f0 f1 f2).shape = [a0.length, a1.length] :=
  chT01_shape a0 a1 f1 _ _ rfl

/-- Exponentiated entry of `chT01n`. -/
lemma chT01nD_lexp (hf0 : ∀ x, x < a0.length → f0 x = 0 ∨ eps < f0 x)
    (hf1 : ∀ x, x < a0.length → ∀ y, y < a1.length → f1 x y = 0 ∨ eps < f1 x y)
    (x : ℕ) (hx : x < a0.length) (y : ℕ) (hy : y < a1.length) :
    lexp ((chT01n a0 a1 a2 f0 f1 f2).data [x, y]) = f0 x * f1 x y :=
  chT01n_lexp a0 a1 f0 f1 ((chain3 a0 a1 a2 f0 f1 f2).node2dims) hf0 hf1 x hx y hy

/-- Eliminating node 0 from `chT01n` yields the node-1 log marginal. -/
lemma chM1nD_eval (hf0 : ∀ x, x < a0.length → f0 x = 0 ∨ eps < f0 x)
    (hf1 : ∀ x, x < a0.length → ∀ y, y < a1.length → f1 x y = 0 ∨ eps < f1 x y)
    (y : ℕ) (hy : y < a1.length) :
    (marginalize (chT01n a0 a1 a2 f0 f1 f2) [0]).data [y] = lse (chM1 a0 f0 f1 y) :=
  chain_M1_eval a0 a1 f0 f1 (np_log (chC0 a0 f0)) _ rfl (chC0n_lexp a0 f0 hf0) hf1 y hy

/-- Entry of `chT02n`: the log joint of nodes 0 and 2. -/
lemma chT02nD_eval (hf0 : ∀ x, x < a0.length → f0 x = 0 ∨ eps < f0 x)
    (hf1 : ∀ x, x < a0.length → ∀ y, y < a1.length → f1 x y = 0 ∨ eps < f1 x y)
    (hf2 : ∀ y, y < a1.length → ∀ z, z < a2.length → f2 y z = 0 ∨ eps < f2 y z)
    (x : ℕ) (hx : x < a0.length) (z : ℕ) (hz : z < a2.length) :
    (chT02n a0 a1 a2 f0 f1 f2).data [x, z] = lse (chJ02 a1 f0 f1 f2 x z) :=
  chain_J02_eval a0 a1 a2 f0 f1 f2 (chT01n a0 a1 a2 f0 f1 f2) _
    (chT01n_shape a0 a1 a2 f0 f1 f2)
    (fun x hx y hy => chT01nD_lexp a0 a1 a2 f0 f1 f2 hf0 hf1 x hx y hy)
    hf2 x hx z hz

/-- Exponentiated entry of `chT12n`. -/
lemma chT12nD_lexp (hf0 : ∀ x, x < a0.length → f0 x = 0 ∨ eps < f0 x)
    (hf1 : ∀ x, x < a0.length → ∀ y, y < a1.length → f1 x y = 0 ∨ eps < f1 x y)
    (hf2 : ∀ y, y < a1.length → ∀ z, z < a2.length → f2 y z = 0 ∨ eps < f2 y z)
    (y : ℕ) (hy : y < a1.length) (z : ℕ) (hz : z < a2.length) :
    lexp ((chT12n a0 a1 a2 f0 f1 f2).data [y, z]) = chM1 a0 f0 f1 y * f2 y z := by
  rw [show (chT12n a0 a1 a2 f0 f1 f2).data [y, z]
        = lmul ((marginalize (chT01n a0 a1 a2 f0 f1 f2) [0]).data [y])
            (no_warn_logE (f2 y z)) from
      chT12_data a1 a2 f2 _ _ (marg0_shape _ _ _ (chT01n_shape a0 a1 a2 f0 f1 f2)) y z]
  rw [lexp_lmul, chM1nD_eval a0 a1 a2 f0 f1 f2 hf0 hf1 y hy,
    lexp_lse _ (chM1_nonneg a0 a1 f0 f1 hf0 hf1 y hy),
    lexp_no_warn_logE _ (hf2 y hy z hz)]

/-- Constants pull out of `rsum` on the right. -/
lemma rsum_mul_right (n : ℕ) (c : ℚ) (f : ℕ → ℚ) :
    rsum n (fun i => f i * c) = rsum n f * c := by
  rw [rsum_eq_finset, rsum_eq_finset]
  exact (Finset.sum_mul _ _ _).symm

/-- `rsum` of the zero function. -/
lemma rsum_zero (n : ℕ) : rsum n (fun _ => (0 : ℚ)) = 0 := by
  rw [rsum_eq_finset]
  simp

/-- Summing the 0-2 joint over node 0 gives the node-2 marginal. -/
lemma chM2_swap (z : ℕ) :
    rsum a0.length (fun x => chJ02 a1 f0 f1 f2 x z) = chM2 a0 a1 f0 f1 f2 z := by
  have h1 : rsum a1.length (fun y => chM1 a0 f0 f1 y * f2 y z)
      = rsum a1.length (fun y => rsum a0.length (fun x => f0 x * f1 x y * f2 y z)) :=
    rsum_congr _ _ _ (fun y _ => by rw [chM1_def, ← rsum_mul_right])
  rw [chM2_def, h1, rsum_comm]
  exact rsum_congr _ _ _ (fun x _ => chJ02_def a1 f0 f1 f2 x z)

/-- Summing the 0-2 joint over node 2 gives the node-0 marginal. -/
lemma chJ02_total (hs1 : ∀ x, x < a0.length → rsum a1.length (f1 x) = 1)
    (hs2 : ∀ y, y < a1.length → rsum a2.length (f2 y) = 1)
    (x : ℕ) (hx : x < a0.length) :
    rsum a2.length (fun z => chJ02 a1 f0 f1 f2 x z) = f0 x := by
  rw [show (fun z => chJ02 a1 f0 f1 f2 x z)
      = fun z => rsum a1.length (fun y => f0 x * f1 x y * f2 y z) from rfl]
  rw [rsum_comm]
  have h2 : ∀ y, y < a1.length →
      rsum a2.length (fun z => f0 x * f1 x y * f2 y z) = f0 x * f1 x y := by
    intro y hy
    rw [rsum_mul_left, hs2 y hy, mul_one]
  rw [rsum_congr _ _ _ h2, rsum_mul_left, hs1 x hx, mul_one]

/-- The joint of nodes 0 and 2 vanishes where the node-0 marginal does. -/
lemma chJ02_zero_of_f0 (x : ℕ) (h : f0 x = 0) (z : ℕ) : chJ02 a1 f0 f1 f2 x z = 0 := by
  rw [chJ02_def, rsum_congr _ _ _ (fun y _ => by rw [h, zero_mul, zero_mul]), rsum_zero]

/-- `get_marginals_new(log=True)` on the chain for target `[0, 1]`. -/
lemma chain_log01 :
    (chain3 a0 a1 a2 f0 f1 f2).get_marginals_new_log [0, 1]
      = .ok (.table (chF01 a0 a1 a2 f0 f1 f2)) := by
  unfold DiscreteDAG.get_marginals_new_log DiscreteDAG.get_marginals_new_res
  rw [if_neg (show ¬([0, 1] : List ℕ) = [] from by decide)]
  have hsub : (chain3 a0 a1 a2 f0 f1 f2).graph.ancestral_subgraph [0, 1]
      = ⟨[0, 1], [(0, 1)]⟩ := by
    rw [chain3_graph]
    decide
  rw [hsub]
  dsimp only
  rw [show (Digraph.topological_sort ⟨[0, 1], [(0, 1)]⟩) = [0, 1] from by decide]
  dsimp only
  rw [chain_gmn_loop01 a0 a1 a2 f0 f1 f2 [0, 1] (by decide) (by decide)]
  dsimp only
  have ht : (addvarT (np_log (chC0 a0 f0)) [0] (chC1 a0 a1 f1)
      (chain3 a0 a1 a2 f0 f1 f2).node2dims [0]).shape = [a0.length, a1.length] :=
    chT01_shape _ _ _ _ _ rfl
  rw [repeat_dimensions_none_ok _ [0, 1] [0, 1] (by rw [ht]; rfl) (by decide) (by decide)]
  dsimp only
  exact congrArg (fun t => Except.ok (MargRes.table t))
    (tensor_eq (by rw [ht]; simp) (fun idx => by simp [chT01n, chT02n, chT12n]))

/-- `get_marginals_new(log=True)` on the chain for target `[1, 0]`. -/
lemma chain_log10 :
    (chain3 a0 a1 a2 f0 f1 f2).get_marginals_new_log [1, 0]
      = .ok (.table (chF10 a0 a1 a2 f0 f1 f2)) := by
  unfold DiscreteDAG.get_marginals_new_log DiscreteDAG.get_marginals_new_res
  rw [if_neg (show ¬([1, 0] : List ℕ) = [] from by decide)]
  have hsub : (chain3 a0 a1 a2 f0 f1 f2).graph.ancestral_subgraph [1, 0]
      = ⟨[0, 1], [(0, 1)]⟩ := by
    rw [chain3_graph]
    decide
  rw [hsub]
  dsimp only
  rw [show (Digraph.topological_sort ⟨[0, 1], [(0, 1)]⟩) = [0, 1] from by decide]
  dsimp only
  rw [chain_gmn_loop01 a0 a1 a2 f0 f1 f2 [1, 0] (by decide) (by decide)]
  dsimp only
  have ht : (addvarT (np_log (chC0 a0 f0)) [0] (chC1 a0 a1 f1)
      (chain3 a0 a1 a2 f0 f1 f2).node2dims [0]).shape = [a0.length, a1.length] :=
    chT01_shape _ _ _ _ _ rfl
  rw [repeat_dimensions_none_ok _ [0, 1] [1, 0] (by rw [ht]; rfl) (by decide) (by decide)]
  dsimp only
  exact congrArg (fun t => Except.ok (MargRes.table t))
    (tensor_eq (by rw [ht]; simp) (fun idx => by simp [chT01n, chT02n, chT12n]))

/-- `get_marginals_new(log=True)` on the chain for target `[0, 2]`. -/
lemma chain_log02 :
    (chain3 a0 a1 a2 f0 f1 f2).get_marginals_new_log [0, 2]
      = .ok (.table (chF02 a0 a1 a2 f0 f1 f2)) := by
  unfold DiscreteDAG.get_marginals_new_log DiscreteDAG.get_marginals_new_res
  rw [if_neg (show ¬([0, 2] : List ℕ) = [] from by decide)]
  have hsub : (chain3 a0 a1 a2 f0 f1 f2).graph.ancestral_subgraph [0, 2]
      = ⟨[0, 1, 2], [(0, 1), (1, 2)]⟩ := by
    rw [chain3_graph]
    decide
  rw [hsub]
  dsimp only
  rw [show (Digraph.topological_sort ⟨[0, 1, 2], [(0, 1), (1, 2)]⟩) = [0, 1, 2] from by decide]
  dsimp only
  rw [chain_gmn_loop02 a0 a1 a2 f0 f1 f2 [0, 2] (by decide) (by decide) (by decide)]
  dsimp only
  have ht : (marginalize (addvarT (addvarT (np_log (chC0 a0 f0)) [0] (chC1 a0 a1 f1)
      (chain3 a0 a1 a2 f0 f1 f2).node2dims [0]) [0, 1] (chC2 a1 a2 f2)
      (chain3 a0 a1 a2 f0 f1 f2).node2dims [1]) [1]).shape = [a0.length, a2.length] :=
    marg1_shape3 _ _ _ _ (chT02i_shape _ _ _ _ _ _ (chT01_shape _ _ _ _ _ rfl))
  rw [repeat_dimensions_none_ok _ [0, 2] [0, 2] (by rw [ht]; rfl) (by decide) (by decide)]
  dsimp only
  exact congrArg (fun t => Except.ok (MargRes.table t))
    (tensor_eq (by rw [ht]; simp) (fun idx => by simp [chT01n, chT02n, chT12n]))

/-- `get_marginals_new(log=True)` on the chain for target `[2, 0]`. -/
lemma chain_log20 :
    (chain3 a0 a1 a2 f0 f1 f2).get_marginals_new_log [2, 0]
      = .ok (.table (chF20 a0 a1 a2 f0 f1 f2)) := by
  unfold DiscreteDAG.get_marginals_new_log DiscreteDAG.get_marginals_new_res
  rw [if_neg (show ¬([2, 0] : List ℕ) = [] from by decide)]
  have hsub : (chain3 a0 a1 a2 f0 f1 f2).graph.ancestral_subgraph [2, 0]
      = ⟨[0, 1, 2], [(0, 1), (1, 2)]⟩ := by
    rw [chain3_graph]
    decide
  rw [hsub]
  dsimp only
  rw [show (Digraph.topological_sort ⟨[0, 1, 2], [(0, 1), (1, 2)]⟩) = [0, 1, 2] from by decide]
  dsimp only
  rw [chain_gmn_loop02 a0 a1 a2 f0 f1 f2 [2, 0] (by decide) (by decide) (by decide)]
  dsimp only
  have ht : (marginalize (addvarT (addvarT (np_log (chC0 a0 f0)) [0] (chC1 a0 a1 f1)
      (chain3 a0 a1 a2 f0 f1 f2).node2dims [0]) [0, 1] (chC2 a1 a2 f2)
      (chain3 a0 a1 a2 f0 f1 f2).node2dims [1]) [1]).shape = [a0.length, a2.length] :=
    marg1_shape3 _ _ _ _ (chT02i_shape _ _ _ _ _ _ (chT01_shape _ _ _ _ _ rfl))
  rw [repeat_dimensions_none_ok _ [0, 2] [2, 0] (by rw [ht]; rfl) (by decide) (by decide)]
  dsimp only
  exact congrArg (fun t => Except.ok (MargRes.table t))
    (tensor_eq (by rw [ht]; simp) (fun idx => by simp [chT01n, chT02n, chT12n]))

/-- `get_marginals_new(log=True)` on the chain for target `[1, 2]`. -/
lemma chain_log12 :
    (chain3 a0 a1 a2 f0 f1 f2).get_marginals_new_log [1, 2]
      = .ok (.table (chF12 a0 a1 a2 f0 f1 f2)) := by
  unfold DiscreteDAG.get_marginals_new_log DiscreteDAG.get_marginals_new_res
  rw [if_neg (show ¬([1, 2] : List ℕ) = [] from by decide)]
  have hsub : (chain3 a0 a1 a2 f0 f1 f2).graph.ancestral_subgraph [1, 2]
      = ⟨[0, 1, 2], [(0, 1), (1, 2)]⟩ := by
    rw [chain3_graph]
    decide
  rw [hsub]
  dsimp only
  rw [show (Digraph.topological_sort ⟨[0, 1, 2], [(0, 1), (1, 2)]⟩) = [0, 1, 2] from by decide]
  dsimp only
  rw [chain_gmn_loop12 a0 a1 a2 f0 f1 f2 [1, 2] (by decide) (by decide) (by decide)]
  dsimp only
  have ht : (addvarT (marginalize (addvarT (np_log (chC0 a0 f0)) [0] (chC1 a0 a1 f1)
      (chain3 a0 a1 a2 f0 f1 f2).node2dims [0]) [0]) [1] (chC2 a1 a2 f2)
      (chain3 a0 a1 a2 f0 f1 f2).node2dims [1]).shape = [a1.length, a2.length] :=
    chT12_shape _ _ _ _ _ (marg0_shape _ _ _ (chT01_shape _ _ _ _ _ rfl))
  rw [repeat_dimensions_none_ok _ [1, 2] [1, 2] (by rw [ht]; rfl) (by decide) (by decide)]
  dsimp only
  exact congrArg (fun t => Except.ok (MargRes.table t))
    (tensor_eq (by rw [ht]; simp) (fun idx => by simp [chT01n, chT02n, chT12n]))

/-- `get_marginals_new(log=True)` on the chain for target `[2, 1]`. -/
lemma chain_log21 :
    (chain3 a0 a1 a2 f0 f1 f2).get_marginals_new_log [2, 1]
      = .ok (.table (chF21 a0 a1 a2 f0 f1 f2)) := by
  unfold DiscreteDAG.get_marginals_new_log DiscreteDAG.get_marginals_new_res
  rw [if_neg (show ¬([2, 1] : List ℕ) = [] from by decide)]
  have hsub : (chain3 a0 a1 a2 f0 f1 f2).graph.ancestral_subgraph [2, 1]
      = ⟨[0, 1, 2], [(0, 1), (1, 2)]⟩ := by
    rw [chain3_graph]
    decide
  rw [hsub]
  dsimp only
  rw [show (Digraph.topological_sort ⟨[0, 1, 2], [(0, 1), (1, 2)]⟩) = [0, 1, 2] from by decide]
  dsimp only
  rw [chain_gmn_loop12 a0 a1 a2 f0 f1 f2 [2, 1] (by decide) (by decide) (by decide)]
  dsimp only
  have ht : (addvarT (marginalize (addvarT (np_log (chC0 a0 f0)) [0] (chC1 a0 a1 f1)
      (chain3 a0 a1 a2 f0 f1 f2).node2dims [0]) [0]) [1] (chC2 a1 a2 f2)
      (chain3 a0 a1 a2 f0 f1 f2).node2dims [1]).shape = [a1.length, a2.length] :=
    chT12_shape _ _ _ _ _ (marg0_shape _ _ _ (chT01_shape _ _ _ _ _ rfl))
  rw [repeat_dimensions_none_ok _ [1, 2] [2, 1] (by rw [ht]; rfl) (by decide) (by decide)]
  dsimp only
  exact congrArg (fun t => Except.ok (MargRes.table t))
    (tensor_eq (by rw [ht]; simp) (fun idx => by simp [chT01n, chT02n, chT12n]))

/-- Entry of `get_marginal 0`'s result table. -/
lemma chain_gm0_entry (hf0 : ∀ x, x < a0.length → f0 x = 0 ∨ eps < f0 x)
    (x : ℕ) (hx : x < a0.length) :
    (np_exp (no_warn_log (chC0 a0 f0))).data [x] = f0 x := by
  rw [np_exp_data]
  exact chC0w_lexp a0 f0 hf0 x hx

/-- Entry of `get_marginal 1`'s result table. -/
lemma chain_gm1_entry (hf0 : ∀ x, x < a0.length → f0 x = 0 ∨ eps < f0 x)
    (hf1 : ∀ x, x < a0.length → ∀ y, y < a1.length → f1 x y = 0 ∨ eps < f1 x y)
    (y : ℕ) (hy : y < a1.length) :
    (np_exp (marginalize (addvarT (no_warn_log (chC0 a0 f0)) [0] (chC1 a0 a1 f1)
      (chain3 a0 a1 a2 f0 f1 f2).node2dims [0]) [0])).data [y] = chM1 a0 f0 f1 y := by
  rw [np_exp_data,
    chain_M1_eval a0 a1 f0 f1 (no_warn_log (chC0 a0 f0)) _ rfl (chC0w_lexp a0 f0 hf0) hf1 y hy,
    lexp_lse _ (chM1_nonneg a0 a1 f0 f1 hf0 hf1 y hy)]

/-- Entry of `get_marginal 2`'s result table. -/
lemma chain_gm2_entry (hf0 : ∀ x, x < a0.length → f0 x = 0 ∨ eps < f0 x)
    (hf1 : ∀ x, x < a0.length → ∀ y, y < a1.length → f1 x y = 0 ∨ eps < f1 x y)
    (hf2 : ∀ y, y < a1.length → ∀ z, z < a2.length → f2 y z = 0 ∨ eps < f2 y z)
    (z : ℕ) (hz : z < a2.length) :
    (np_exp (marginalize (addvarT (marginalize (addvarT (no_warn_log (chC0 a0 f0)) [0]
      (chC1 a0 a1 f1) (chain3 a0 a1 a2 f0 f1 f2).node2dims [0]) [0]) [1] (chC2 a1 a2 f2)
      (chain3 a0 a1 a2 f0 f1 f2).node2dims [1]) [0])).data [z]
      = chM2 a0 a1 f0 f1 f2 z := by
  rw [np_exp_data,
    chain_M2_eval a0 a1 a2 f0 f1 f2
      (marginalize (addvarT (no_warn_log (chC0 a0 f0)) [0] (chC1 a0 a1 f1)
        (chain3 a0 a1 a2 f0 f1 f2).node2dims [0]) [0])
      ((chain3 a0 a1 a2 f0 f1 f2).node2dims)
      (marg0_shape _ _ _ (chT01_shape a0 a1 f1 _ _ rfl))
      (fun y hy => chain_M1_eval a0 a1 f0 f1 _ _ rfl (chC0w_lexp a0 f0 hf0) hf1 y hy)
      hf0 hf1 hf2 z hz,
    lexp_lse _ (chM2_nonneg a0 a1 a2 f0 f1 f2 hf0 hf1 hf2 z hz)]

/-- Conditioning marginal inside `get_conditional [0] [1]`. -/
lemma chain_cm01 (hf0 : ∀ x, x < a0.length → f0 x = 0 ∨ eps < f0 x)
    (hf1 : ∀ x, x < a0.length → ∀ y, y < a1.length → f1 x y = 0 ∨ eps < f1 x y)
    (y : ℕ) (hy : y < a1.length) :
    (marginalize (chF01 a0 a1 a2 f0 f1 f2) [0]).data [y] = lse (chM1 a0 f0 f1 y) := by
  rw [marg0_data _ a0.length a1.length rfl y]
  congr 1
  rw [chM1_def]
  apply rsum_congr
  intro i hi
  exact chT01nD_lexp a0 a1 a2 f0 f1 f2 hf0 hf1 i hi y hy

/-- Conditioning marginal inside `get_conditional [1] [0]`. -/
lemma chain_cm10 (hf0 : ∀ x, x < a0.length → f0 x = 0 ∨ eps < f0 x)
    (hf1 : ∀ x, x < a0.length → ∀ y, y < a1.length → f1 x y = 0 ∨ eps < f1 x y)
    (hs1 : ∀ x, x < a0.length → rsum a1.length (f1 x) = 1)
    (y : ℕ) (hy : y < a0.length) :
    (marginalize (chF10 a0 a1 a2 f0 f1 f2) [0]).data [y] = lse (f0 y) := by
  rw [marg0_data _ a1.length a0.length rfl y]
  congr 1
  have h : ∀ i, i < a1.length →
      lexp ((chF10 a0 a1 a2 f0 f1 f2).data [i, y]) = f0 y * f1 y i :=
    fun i hi => chT01nD_lexp a0 a1 a2 f0 f1 f2 hf0 hf1 y hy i hi
  rw [rsum_congr _ _ _ h, rsum_mul_left, hs1 y hy, mul_one]

/-- Conditioning marginal inside `get_conditional [0] [2]`. -/
lemma chain_cm02 (hf0 : ∀ x, x < a0.length → f0 x = 0 ∨ eps < f0 x)
    (hf1 : ∀ x, x < a0.length → ∀ y, y < a1.length → f1 x y = 0 ∨ eps < f1 x y)
    (hf2 : ∀ y, y < a1.length → ∀ z, z < a2.length → f2 y z = 0 ∨ eps < f2 y z)
    (z : ℕ) (hz : z < a2.length) :
    (marginalize (chF02 a0 a1 a2 f0 f1 f2) [0]).data [z]
      = lse (chM2 a0 a1 f0 f1 f2 z) := by
  rw [marg0_data _ a0.length a2.length rfl z]
  congr 1
  have h : ∀ i, i < a0.length →
      lexp ((chF02 a0 a1 a2 f0 f1 f2).data [i, z]) = chJ02 a1 f0 f1 f2 i z := by
    intro i hi
    have he : (chF02 a0 a1 a2 f0 f1 f2).data [i, z] = lse (chJ02 a1 f0 f1 f2 i z) :=
      chT02nD_eval a0 a1 a2 f0 f1 f2 hf0 hf1 hf2 i hi z hz
    rw [he, lexp_lse _ (chJ02_nonneg a0 a1 a2 f0 f1 f2 hf0 hf1 hf2 i hi z hz)]
  rw [rsum_congr _ _ _ h, chM2_swap]

/-- Conditioning marginal inside `get_conditional [2] [0]`. -/
lemma chain_cm20 (hf0 : ∀ x, x < a0.length → f0 x = 0 ∨ eps < f0 x)
    (hf1 : ∀ x, x < a0.length → ∀ y, y < a1.length → f1 x y = 0 ∨ eps < f1 x y)
    (hf2 : ∀ y, y < a1.length → ∀ z, z < a2.length → f2 y z = 0 ∨ eps < f2 y z)
    (hs1 : ∀ x, x < a0.length → rsum a1.length (f1 x) = 1)
    (hs2 : ∀ y, y < a1.length → rsum a2.length (f2 y) = 1)
    (y : ℕ) (hy : y < a0.length) :
    (marginalize (chF20 a0 a1 a2 f0 f1 f2) [0]).data [y] = lse (f0 y) := by
  rw [marg0_data _ a2.length a0.length rfl y]
  congr 1
  have h : ∀ s, s < a2.length →
      lexp ((chF20 a0 a1 a2 f0 f1 f2).data [s, y]) = chJ02 a1 f0 f1 f2 y s := by
    intro s hs
    have he : (chF20 a0 a1 a2 f0 f1 f2).data [s, y] = lse (chJ02 a1 f0 f1 f2 y s) :=
      chT02nD_eval a0 a1 a2 f0 f1 f2 hf0 hf1 hf2 y hy s hs
    rw [he, lexp_lse _ (chJ02_nonneg a0 a1 a2 f0 f1 f2 hf0 hf1 hf2 y hy s hs)]
  rw [rsum_congr _ _ _ h, chJ02_total a0 a1 a2 f0 f1 f2 hs1 hs2 y hy]

/-- Conditioning marginal inside `get_conditional [1] [2]`. -/
lemma chain_cm12 (hf0 : ∀ x, x < a0.length → f0 x = 0 ∨ eps < f0 x)
    (hf1 : ∀ x, x < a0.length → ∀ y, y < a1.length → f1 x y = 0 ∨ eps < f1 x y)
    (hf2 : ∀ y, y < a1.length → ∀ z, z < a2.length → f2 y z = 0 ∨ eps < f2 y z)
    (z : ℕ) (hz : z < a2.length) :
    (marginalize (chF12 a0 a1 a2 f0 f1 f2) [0]).data [z]
      = lse (chM2 a0 a1 f0 f1 f2 z) := by
  rw [marg0_data _ a1.length a2.length rfl z]
  congr 1
  rw [chM2_def]
  apply rsum_congr
  intro y hy
  exact chT12nD_lexp a0 a1 a2 f0 f1 f2 hf0 hf1 hf2 y hy z hz

/-- Conditioning marginal inside `get_conditional [2] [1]`. -/
lemma chain_cm21 (hf0 : ∀ x, x < a0.length → f0 x = 0 ∨ eps < f0 x)
    (hf1 : ∀ x, x < a0.length → ∀ y, y < a1.length → f1 x y = 0 ∨ eps < f1 x y)
    (hf2 : ∀ y, y < a1.length → ∀ z, z < a2.length → f2 y z = 0 ∨ eps < f2 y z)
    (hs2 : ∀ y, y < a1.length → rsum a2.length (f2 y) = 1)
    (y : ℕ) (hy : y < a1.length) :
    (marginalize (chF21 a0 a1 a2 f0 f1 f2) [0]).data [y] = lse (chM1 a0 f0 f1 y) := by
  rw [marg0_data _ a2.length a1.length rfl y]
  congr 1
  have h : ∀ s, s < a2.length →
      lexp ((chF21 a0 a1 a2 f0 f1 f2).data [s, y]) = chM1 a0 f0 f1 y * f2 y s :=
    fun s hs => chT12nD_lexp a0 a1 a2 f0 f1 f2 hf0 hf1 hf2 y hy s hs
  rw [rsum_congr _ _ _ h, rsum_mul_left, hs2 y hy, mul_one]

/-- `get_conditional [0] [1]` on the chain. -/
lemma chain_cond01 :
    (chain3 a0 a1 a2 f0 f1 f2).get_conditional [0] [1]
      = .ok (chCondT (chF01 a0 a1 a2 f0 f1 f2) (a0.length : ℚ)) := by
  unfold DiscreteDAG.get_conditional
  rw [show (([0] : List ℕ).filter (fun n => ¬ n ∈ [1])) = [0] from by decide]
  dsimp only [List.cons_append, List.nil_append]
  rw [chain_log01 a0 a1 a2 f0 f1 f2]
  dsimp only
  rw [if_pos rfl]
  rw [show (([0] : List ℕ).length) = 1 from rfl]
  rw [show (List.range 1) = [0] from by decide]
  rw [show (([0] : List ℕ).map (fun n =>
      (((chain3 a0 a1 a2 f0 f1 f2).node_alphabets n).length : ℚ))).prod
      = (a0.length : ℚ) from by simp [chain3]]
  rfl

/-- `get_conditional [1] [0]` on the chain. -/
lemma chain_cond10 :
    (chain3 a0 a1 a2 f0 f1 f2).get_conditional [1] [0]
      = .ok (chCondT (chF10 a0 a1 a2 f0 f1 f2) (a1.length : ℚ)) := by
  unfold DiscreteDAG.get_conditional
  rw [show (([1] : List ℕ).filter (fun n => ¬ n ∈ [0])) = [1] from by decide]
  dsimp only [List.cons_append, List.nil_append]
  rw [chain_log10 a0 a1 a2 f0 f1 f2]
  dsimp only
  rw [if_pos rfl]
  rw [show (([1] : List ℕ).length) = 1 from rfl]
  rw [show (List.range 1) = [0] from by decide]
  rw [show (([1] : List ℕ).map (fun n =>
      (((chain3 a0 a1 a2 f0 f1 f2).node_alphabets n).length : ℚ))).prod
      = (a1.length : ℚ) from by simp [chain3]]
  rfl

/-- `get_conditional [0] [2]` on the chain. -/
lemma chain_cond02 :
    (chain3 a0 a1 a2 f0 f1 f2).get_conditional [0] [2]
      = .ok (chCondT (chF02 a0 a1 a2 f0 f1 f2) (a0.length : ℚ)) := by
  unfold DiscreteDAG.get_conditional
  rw [show (([0] : List ℕ).filter (fun n => ¬ n ∈ [2])) = [0] from by decide]
  dsimp only [List.cons_append, List.nil_append]
  rw [chain_log02 a0 a1 a2 f0 f1 f2]
  dsimp only
  rw [if_pos rfl]
  rw [show (([0] : List ℕ).length) = 1 from rfl]
  rw [show (List.range 1) = [0] from by decide]
  rw [show (([0] : List ℕ).map (fun n =>
      (((chain3 a0 a1 a2 f0 f1 f2).node_alphabets n).length : ℚ))).prod
      = (a0.length : ℚ) from by simp [chain3]]
  rfl

/-- `get_conditional [2] [0]` on the chain. -/
lemma chain_cond20 :
    (chain3 a0 a1 a2 f0 f1 f2).get_conditional [2] [0]
      = .ok (chCondT (chF20 a0 a1 a2 f0 f1 f2) (a2.length : ℚ)) := by
  unfold DiscreteDAG.get_conditional
  rw [show (([2] : List ℕ).filter (fun n => ¬ n ∈ [0])) = [2] from by decide]
  dsimp only [List.cons_append, List.nil_append]
  rw [chain_log20 a0 a1 a2 f0 f1 f2]
  dsimp only
  rw [if_pos rfl]
  rw [show (([2] : List ℕ).length) = 1 from rfl]
  rw [show (List.range 1) = [0] from by decide]
  rw [show (([2] : List ℕ).map (fun n =>
      (((chain3 a0 a1 a2 f0 f1 f2).node_alphabets n).length : ℚ))).prod
      = (a2.length : ℚ) from by simp [chain3]]
  rfl

/-- `get_conditional [1] [2]` on the chain. -/
lemma chain_cond12 :
    (chain3 a0 a1 a2 f0 f1 f2).get_conditional [1] [2]
      = .ok (chCondT (chF12 a0 a1 a2 f0 f1 f2) (a1.length : ℚ)) := by
  unfold DiscreteDAG.get_conditional
  rw [show (([1] : List ℕ).filter (fun n => ¬ n ∈ [2])) = [1] from by decide]
  dsimp only [List.cons_append, List.nil_append]
  rw [chain_log12 a0 a1 a2 f0 f1 f2]
  dsimp only
  rw [if_pos rfl]
  rw [show (([1] : List ℕ).length) = 1 from rfl]
  rw [show (List.range 1) = [0] from by decide]
  rw [show (([1] : List ℕ).map (fun n =>
      (((chain3 a0 a1 a2 f0 f1 f2).node_alphabets n).length : ℚ))).prod
      = (a1.length : ℚ) from by simp [chain3]]
  rfl

/-- `get_conditional [2] [1]` on the chain. -/
lemma chain_cond21 :
    (chain3 a0 a1 a2 f0 f1 f2).get_conditional [2] [1]
      = .ok (chCondT (chF21 a0 a1 a2 f0 f1 f2) (a2.length : ℚ)) := by
  unfold DiscreteDAG.get_conditional
  rw [show (([2] : List ℕ).filter (fun n => ¬ n ∈ [1])) = [2] from by decide]
  dsimp only [List.cons_append, List.nil_append]
  rw [chain_log21 a0 a1 a2 f0 f1 f2]
  dsimp only
  rw [if_pos rfl]
  rw [show (([2] : List ℕ).length) = 1 from rfl]
  rw [show (List.range 1) = [0] from by decide]
  rw [show (([2] : List ℕ).map (fun n =>
      (((chain3 a0 a1 a2 f0 f1 f2).node_alphabets n).length : ℚ))).prod
      = (a2.length : ℚ) from by simp [chain3]]
  rfl

/-- Round trip for X = 0, Y = 1. -/
lemma chain_round01
    (hf0 : ∀ x, x < a0.length → f0 x = 0 ∨ eps < f0 x)
    (hf1 : ∀ x, x < a0.length → ∀ y, y < a1.length → f1 x y = 0 ∨ eps < f1 x y)
    (hf2 : ∀ y, y < a1.length → ∀ z, z < a2.length → f2 y z = 0 ∨ eps < f2 y z)
    (hs1 : ∀ x, x < a0.length → rsum a1.length (f1 x) = 1)
    (hs2 : ∀ y, y < a1.length → rsum a2.length (f2 y) = 1) :
    ∃ tX tC tY : Tensor ℚ,
      (chain3 a0 a1 a2 f0 f1 f2).get_marginal 0 = .ok tX ∧
      (chain3 a0 a1 a2 f0 f1 f2).get_conditional [0] [1] = .ok tC ∧
      (chain3 a0 a1 a2 f0 f1 f2).get_marginal 1 = .ok tY ∧
      ∀ x, x < (chain3 a0 a1 a2 f0 f1 f2).node2dims 0 →
        tX.data [x] = rsum ((chain3 a0 a1 a2 f0 f1 f2).node2dims 1)
          (fun y => tC.data [x, y] * tY.data [y]) := by
  refine ⟨_, _, _, chain_gm0 a0 a1 a2 f0 f1 f2, chain_cond01 a0 a1 a2 f0 f1 f2,
    chain_gm1 a0 a1 a2 f0 f1 f2, ?_⟩
  rw [chain3_dims0, chain3_dims1]
  intro x hx
  rw [chain_gm0_entry a0 f0 hf0 x hx]
  have hstep : ∀ y, y < a1.length →
      (chCondT (chF01 a0 a1 a2 f0 f1 f2) (a0.length : ℚ)).data [x, y]
        * (np_exp (marginalize (addvarT (no_warn_log (chC0 a0 f0)) [0] (chC1 a0 a1 f1)
            (chain3 a0 a1 a2 f0 f1 f2).node2dims [0]) [0])).data [y]
      = f0 x * f1 x y := by
    intro y hy
    rw [chain_gm1_entry a0 a1 a2 f0 f1 f2 hf0 hf1 y hy]
    rw [chCondT_data, chain_cm01 a0 a1 a2 f0 f1 f2 hf0 hf1 y hy]
    have hnn := chM1_nonneg a0 a1 f0 f1 hf0 hf1 y hy
    by_cases hz : chM1 a0 f0 f1 y = 0
    · rw [if_pos ((lse_eq_none_iff _ hnn).mpr hz), hz, mul_zero]
      exact ((rsum_eq_zero_iff _ _ (fun i hi =>
        mul_nonneg (dich_nonneg (hf0 i hi)) (dich_nonneg (hf1 i hi y hy)))).mp hz x hx).symm
    · rw [if_neg (fun hc => hz ((lse_eq_none_iff _ hnn).mp hc))]
      rw [show lexp ((chF01 a0 a1 a2 f0 f1 f2).data [x, y]) = f0 x * f1 x y from
        chT01nD_lexp a0 a1 a2 f0 f1 f2 hf0 hf1 x hx y hy]
      rw [lexp_lse _ hnn, div_mul_cancel₀ _ hz]
  rw [rsum_congr _ _ _ hstep, rsum_mul_left, hs1 x hx, mul_one]

/-- Round trip for X = 1, Y = 0. -/
lemma chain_round10
    (hf0 : ∀ x, x < a0.length → f0 x = 0 ∨ eps < f0 x)
    (hf1 : ∀ x, x < a0.length → ∀ y, y < a1.length → f1 x y = 0 ∨ eps < f1 x y)
    (hf2 : ∀ y, y < a1.length → ∀ z, z < a2.length → f2 y z = 0 ∨ eps < f2 y z)
    (hs1 : ∀ x, x < a0.length → rsum a1.length (f1 x) = 1)
    (hs2 : ∀ y, y < a1.length → rsum a2.length (f2 y) = 1) :
    ∃ tX tC tY : Tensor ℚ,
      (chain3 a0 a1 a2 f0 f1 f2).get_marginal 1 = .ok tX ∧
      (chain3 a0 a1 a2 f0 f1 f2).get_conditional [1] [0] = .ok tC ∧
      (chain3 a0 a1 a2 f0 f1 f2).get_marginal 0 = .ok tY ∧
      ∀ x, x < (chain3 a0 a1 a2 f0 f1 f2).node2dims 1 →
        tX.data [x] = rsum ((chain3 a0 a1 a2 f0 f1 f2).node2dims 0)
          (fun y => tC.data [x, y] * tY.data [y]) := by
  refine ⟨_, _, _, chain_gm1 a0 a1 a2 f0 f1 f2, chain_cond10 a0 a1 a2 f0 f1 f2,
    chain_gm0 a0 a1 a2 f0 f1 f2, ?_⟩
  rw [chain3_dims1, chain3_dims0]
  intro x hx
  rw [chain_gm1_entry a0 a1 a2 f0 f1 f2 hf0 hf1 x hx]
  have hstep : ∀ y, y < a0.length →
      (chCondT (chF10 a0 a1 a2 f0 f1 f2) (a1.length : ℚ)).data [x, y]
        * (np_exp (no_warn_log (chC0 a0 f0))).data [y]
      = f0 y * f1 y x := by
    intro y hy
    rw [chain_gm0_entry a0 f0 hf0 y hy]
    rw [chCondT_data, chain_cm10 a0 a1 a2 f0 f1 f2 hf0 hf1 hs1 y hy]
    have hnn : (0 : ℚ) ≤ f0 y := dich_nonneg (hf0 y hy)
    by_cases hz : f0 y = 0
    · rw [if_pos ((lse_eq_none_iff _ hnn).mpr hz), hz, mul_zero, zero_mul]
    · rw [if_neg (fun hc => hz ((lse_eq_none_iff _ hnn).mp hc))]
      rw [show lexp ((chF10 a0 a1 a2 f0 f1 f2).data [x, y]) = f0 y * f1 y x from
        chT01nD_lexp a0 a1 a2 f0 f1 f2 hf0 hf1 y hy x hx]
      rw [lexp_lse _ hnn, div_mul_cancel₀ _ hz]
  rw [rsum_congr _ _ _ hstep, chM1_def]

/-- Round trip for X = 0, Y = 2. -/
lemma chain_round02
    (hf0 : ∀ x, x < a0.length → f0 x = 0 ∨ eps < f0 x)
    (hf1 : ∀ x, x < a0.length → ∀ y, y < a1.length → f1 x y = 0 ∨ eps < f1 x y)
    (hf2 : ∀ y, y < a1.length → ∀ z, z < a2.length → f2 y z = 0 ∨ eps < f2 y z)
    (hs1 : ∀ x, x < a0.length → rsum a1.length (f1 x) = 1)
    (hs2 : ∀ y, y < a1.length → rsum a2.length (f2 y) = 1) :
    ∃ tX tC tY : Tensor ℚ,
      (chain3 a0 a1 a2 f0 f1 f2).get_marginal 0 = .ok tX ∧
      (chain3 a0 a1 a2 f0 f1 f2).get_conditional [0] [2] = .ok tC ∧
      (chain3 a0 a1 a2 f0 f1 f2).get_marginal 2 = .ok tY ∧
      ∀ x, x < (chain3 a0 a1 a2 f0 f1 f2).node2dims 0 →
        tX.data [x] = rsum ((chain3 a0 a1 a2 f0 f1 f2).node2dims 2)
          (fun y => tC.data [x, y] * tY.data [y]) := by
  refine ⟨_, _, _, chain_gm0 a0 a1 a2 f0 f1 f2, chain_cond02 a0 a1 a2 f0 f1 f2,
    chain_gm2 a0 a1 a2 f0 f1 f2, ?_⟩
  rw [chain3_dims0, chain3_dims2]
  intro x hx
  rw [chain_gm0_entry a0 f0 hf0 x hx]
  have hstep : ∀ z, z < a2.length →
      (chCondT (chF02 a0 a1 a2 f0 f1 f2) (a0.length : ℚ)).data [x, z]
        * (np_exp (marginalize (addvarT (marginalize (addvarT (no_warn_log (chC0 a0 f0)) [0]
            (chC1 a0 a1 f1) (chain3 a0 a1 a2 f0 f1 f2).node2dims [0]) [0]) [1]
            (chC2 a1 a2 f2) (chain3 a0 a1 a2 f0 f1 f2).node2dims [1]) [0])).data [z]
      = chJ02 a1 f0 f1 f2 x z := by
    intro z hz2
    rw [chain_gm2_entry a0 a1 a2 f0 f1 f2 hf0 hf1 hf2 z hz2]
    rw [chCondT_data, chain_cm02 a0 a1 a2 f0 f1 f2 hf0 hf1 hf2 z hz2]
    have hnn := chM2_nonneg a0 a1 a2 f0 f1 f2 hf0 hf1 hf2 z hz2
    by_cases hz : chM2 a0 a1 f0 f1 f2 z = 0
    · rw [if_pos ((lse_eq_none_iff _ hnn).mpr hz), hz, mul_zero]
      have hz' : rsum a0.length (fun i => chJ02 a1 f0 f1 f2 i z) = 0 := by
        rw [chM2_swap]
        exact hz
      exact ((rsum_eq_zero_iff _ _ (fun i hi =>
        chJ02_nonneg a0 a1 a2 f0 f1 f2 hf0 hf1 hf2 i hi z hz2)).mp hz' x hx).symm
    · rw [if_neg (fun hc => hz ((lse_eq_none_iff _ hnn).mp hc))]
      rw [show lexp ((chF02 a0 a1 a2 f0 f1 f2).data [x, z]) = chJ02 a1 f0 f1 f2 x z from by
        rw [show (chF02 a0 a1 a2 f0 f1 f2).data [x, z] = lse (chJ02 a1 f0 f1 f2 x z) from
          chT02nD_eval a0 a1 a2 f0 f1 f2 hf0 hf1 hf2 x hx z hz2]
        exact lexp_lse _ (chJ02_nonneg a0 a1 a2 f0 f1 f2 hf0 hf1 hf2 x hx z hz2)]
      rw [lexp_lse _ hnn, div_mul_cancel₀ _ hz]
  rw [rsum_congr _ _ _ hstep, ← chJ02_total a0 a1 a2 f0 f1 f2 hs1 hs2 x hx]

/-- Round trip for X = 2, Y = 0. -/
lemma chain_round20
    (hf0 : ∀ x, x < a0.length → f0 x = 0 ∨ eps < f0 x)
    (hf1 : ∀ x, x < a0.length → ∀ y, y < a1.length → f1 x y = 0 ∨ eps < f1 x y)
    (hf2 : ∀ y, y < a1.length → ∀ z, z < a2.length → f2 y z = 0 ∨ eps < f2 y z)
    (hs1 : ∀ x, x < a0.length → rsum a1.length (f1 x) = 1)
    (hs2 : ∀ y, y < a1.length → rsum a2.length (f2 y) = 1) :
    ∃ tX tC tY : Tensor ℚ,
      (chain3 a0 a1 a2 f0 f1 f2).get_marginal 2 = .ok tX ∧
      (chain3 a0 a1 a2 f0 f1 f2).get_conditional [2] [0] = .ok tC ∧
      (chain3 a0 a1 a2 f0 f1 f2).get_marginal 0 = .ok tY ∧
      ∀ x, x < (chain3 a0 a1 a2 f0 f1 f2).node2dims 2 →
        tX.data [x] = rsum ((chain3 a0 a1 a2 f0 f1 f2).node2dims 0)
          (fun y => tC.data [x, y] * tY.data [y]) := by
  refine ⟨_, _, _, chain_gm2 a0 a1 a2 f0 f1 f2, chain_cond20 a0 a1 a2 f0 f1 f2,
    chain_gm0 a0 a1 a2 f0 f1 f2, ?_⟩
  rw [chain3_dims2, chain3_dims0]
  intro z hz2
  rw [chain_gm2_entry a0 a1 a2 f0 f1 f2 hf0 hf1 hf2 z hz2]
  have hstep : ∀ y, y < a0.length →
      (chCondT (chF20 a0 a1 a2 f0 f1 f2) (a2.length : ℚ)).data [z, y]
        * (np_exp (no_warn_log (chC0 a0 f0))).data [y]
      = chJ02 a1 f0 f1 f2 y z := by
    intro y hy
    rw [chain_gm0_entry a0 f0 hf0 y hy]
    rw [chCondT_data, chain_cm20 a0 a1 a2 f0 f1 f2 hf0 hf1 hf2 hs1 hs2 y hy]
    have hnn : (0 : ℚ) ≤ f0 y := dich_nonneg (hf0 y hy)
    by_cases hz : f0 y = 0
    · rw [if_pos ((lse_eq_none_iff _ hnn).mpr hz), hz, mul_zero]
      exact (chJ02_zero_of_f0 a1 f0 f1 f2 y hz z).symm
    · rw [if_neg (fun hc => hz ((lse_eq_none_iff _ hnn).mp hc))]
      rw [show lexp ((chF20 a0 a1 a2 f0 f1 f2).data [z, y]) = chJ02 a1 f0 f1 f2 y z from by
        rw [show (chF20 a0 a1 a2 f0 f1 f2).data [z, y] = lse (chJ02 a1 f0 f1 f2 y z) from
          chT02nD_eval a0 a1 a2 f0 f1 f2 hf0 hf1 hf2 y hy z hz2]
        exact lexp_lse _ (chJ02_nonneg a0 a1 a2 f0 f1 f2 hf0 hf1 hf2 y hy z hz2)]
      rw [lexp_lse _ hnn, div_mul_cancel₀ _ hz]
  rw [rsum_congr _ _ _ hstep, chM2_swap]

/-- Round trip for X = 1, Y = 2. -/
lemma chain_round12
    (hf0 : ∀ x, x < a0.length → f0 x = 0 ∨ eps < f0 x)
    (hf1 : ∀ x, x < a0.length → ∀ y, y < a1.length → f1 x y = 0 ∨ eps < f1 x y)
    (hf2 : ∀ y, y < a1.length → ∀ z, z < a2.length → f2 y z = 0 ∨ eps < f2 y z)
    (hs1 : ∀ x, x < a0.length → rsum a1.length (f1 x) = 1)
    (hs2 : ∀ y, y < a1.length → rsum a2.length (f2 y) = 1) :
    ∃ tX tC tY : Tensor ℚ,
      (chain3 a0 a1 a2 f0 f1 f2).get_marginal 1 = .ok tX ∧
      (chain3 a0 a1 a2 f0 f1 f2).get_conditional [1] [2] = .ok tC ∧
      (chain3 a0 a1 a2 f0 f1 f2).get_marginal 2 = .ok tY ∧
      ∀ x, x < (chain3 a0 a1 a2 f0 f1 f2).node2dims 1 →
        tX.data [x] = rsum ((chain3 a0 a1 a2 f0 f1 f2).node2dims 2)
          (fun y => tC.data [x, y] * tY.data [y]) := by
  refine ⟨_, _, _, chain_gm1 a0 a1 a2 f0 f1 f2, chain_cond12 a0 a1 a2 f0 f1 f2,
    chain_gm2 a0 a1 a2 f0 f1 f2, ?_⟩
  rw [chain3_dims1, chain3_dims2]
  intro x hx
  rw [chain_gm1_entry a0 a1 a2 f0 f1 f2 hf0 hf1 x hx]
  have hstep : ∀ z, z < a2.length →
      (chCondT (chF12 a0 a1 a2 f0 f1 f2) (a1.length : ℚ)).data [x, z]
        * (np_exp (marginalize (addvarT (marginalize (addvarT (no_warn_log (chC0 a0 f0)) [0]
            (chC1 a0 a1 f1) (chain3 a0 a1 a2 f0 f1 f2).node2dims [0]) [0]) [1]
            (chC2 a1 a2 f2) (chain3 a0 a1 a2 f0 f1 f2).node2dims [1]) [0])).data [z]
      = chM1 a0 f0 f1 x * f2 x z := by
    intro z hz2
    rw [chain_gm2_entry a0 a1 a2 f0 f1 f2 hf0 hf1 hf2 z hz2]
    rw [chCondT_data, chain_cm12 a0 a1 a2 f0 f1 f2 hf0 hf1 hf2 z hz2]
    have hnn := chM2_nonneg a0 a1 a2 f0 f1 f2 hf0 hf1 hf2 z hz2
    by_cases hz : chM2 a0 a1 f0 f1 f2 z = 0
    · rw [if_pos ((lse_eq_none_iff _ hnn).mpr hz), hz, mul_zero]
      have hz' : rsum a1.length (fun y => chM1 a0 f0 f1 y * f2 y z) = 0 := by
        rw [← chM2_def]
        exact hz
      exact ((rsum_eq_zero_iff _ _ (fun y hy => mul_nonneg
        (chM1_nonneg a0 a1 f0 f1 hf0 hf1 y hy) (dich_nonneg (hf2 y hy z hz2)))).mp
          hz' x hx).symm
    · rw [if_neg (fun hc => hz ((lse_eq_none_iff _ hnn).mp hc))]
      rw [show lexp ((chF12 a0 a1 a2 f0 f1 f2).data [x, z]) = chM1 a0 f0 f1 x * f2 x z from
        chT12nD_lexp a0 a1 a2 f0 f1 f2 hf0 hf1 hf2 x hx z hz2]
      rw [lexp_lse _ hnn, div_mul_cancel₀ _ hz]
  rw [rsum_congr _ _ _ hstep, rsum_mul_left, hs2 x hx, mul_one]

/-- Round trip for X = 2, Y = 1. -/
lemma chain_round21
    (hf0 : ∀ x, x < a0.length → f0 x = 0 ∨ eps < f0 x)
    (hf1 : ∀ x, x < a0.length → ∀ y, y < a1.length → f1 x y = 0 ∨ eps < f1 x y)
    (hf2 : ∀ y, y < a1.length → ∀ z, z < a2.length → f2 y z = 0 ∨ eps < f2 y z)
    (hs1 : ∀ x, x < a0.length → rsum a1.length (f1 x) = 1)
    (hs2 : ∀ y, y < a1.length → rsum a2.length (f2 y) = 1) :
    ∃ tX tC tY : Tensor ℚ,
      (chain3 a0 a1 a2 f0 f1 f2).get_marginal 2 = .ok tX ∧
      (chain3 a0 a1 a2 f0 f1 f2).get_conditional [2] [1] = .ok tC ∧
      (chain3 a0 a1 a2 f0 f1 f2).get_marginal 1 = .ok tY ∧
      ∀ x, x < (chain3 a0 a1 a2 f0 f1 f2).node2dims 2 →
        tX.data [x] = rsum ((chain3 a0 a1 a2 f0 f1 f2).node2dims 1)
          (fun y => tC.data [x, y] * tY.data [y]) := by
  refine ⟨_, _, _, chain_gm2 a0 a1 a2 f0 f1 f2, chain_cond21 a0 a1 a2 f0 f1 f2,
    chain_gm1 a0 a1 a2 f0 f1 f2, ?_⟩
  rw [chain3_dims2, chain3_dims1]
  intro z hz2
  rw [chain_gm2_entry a0 a1 a2 f0 f1 f2 hf0 hf1 hf2 z hz2]
  have hstep : ∀ y, y < a1.length →
      (chCondT (chF21 a0 a1 a2 f0 f1 f2) (a2.length : ℚ)).data [z, y]
        * (np_exp (marginalize (addvarT (no_warn_log (chC0 a0 f0)) [0] (chC1 a0 a1 f1)
            (chain3 a0 a1 a2 f0 f1 f2).node2dims [0]) [0])).data [y]
      = chM1 a0 f0 f1 y * f2 y z := by
    intro y hy
    rw [chain_gm1_entry a0 a1 a2 f0 f1 f2 hf0 hf1 y hy]
    rw [chCondT_data, chain_cm21 a0 a1 a2 f0 f1 f2 hf0 hf1 hf2 hs2 y hy]
    have hnn := chM1_nonneg a0 a1 f0 f1 hf0 hf1 y hy
    by_cases hz : chM1 a0 f0 f1 y = 0
    · rw [if_pos ((lse_eq_none_iff _ hnn).mpr hz), hz, mul_zero, zero_mul]
    · rw [if_neg (fun hc => hz ((lse_eq_none_iff _ hnn).mp hc))]
      rw [show lexp ((chF21 a0 a1 a2 f0 f1 f2).data [z, y]) = chM1 a0 f0 f1 y * f2 y z from
        chT12nD_lexp a0 a1 a2 f0 f1 f2 hf0 hf1 hf2 y hy z hz2]
      rw [lexp_lse _ hnn, div_mul_cancel₀ _ hz]
  rw [rsum_congr _ _ _ hstep, ← chM2_def]

end Chain

/-- C5: for every 3-node chain network whose CPT entries are each zero
or above the `no_warn_log` threshold `eps` and whose conditional rows
sum to 1, and for every two distinct nodes X and Y, `get_marginal X`,
`get_conditional [X] [Y]` and `get_marginal Y` all succeed, and at
every value index x the X marginal equals the sum over y of the
conditional at (x, y) times the Y marginal at y — exactly in ℚ, hence
within any tolerance. -/
theorem C5_chain_round_trip (a0 a1 a2 : List ℕ) (f0 : ℕ → ℚ) (f1 f2 : ℕ → ℕ → ℚ)
    (hf0 : ∀ x, x < a0.length → f0 x = 0 ∨ eps < f0 x)
    (hf1 : ∀ x, x < a0.length → ∀ y, y < a1.length → f1 x y = 0 ∨ eps < f1 x y)
    (hf2 : ∀ y, y < a1.length → ∀ z, z < a2.length → f2 y z = 0 ∨ eps < f2 y z)
    (hs1 : ∀ x, x < a0.length → rsum a1.length (f1 x) = 1)
    (hs2 : ∀ y, y < a1.length → rsum a2.length (f2 y) = 1)
    (X Y : ℕ) (hX : X < 3) (hY : Y < 3) (hXY : X ≠ Y) :
    ∃ tX tC tY : Tensor ℚ,
      (chain3 a0 a1 a2 f0 f1 f2).get_marginal X = .ok tX ∧
      (chain3 a0 a1 a2 f0 f1 f2).get_conditional [X] [Y] = .ok tC ∧
      (chain3 a0 a1 a2 f0 f1 f2).get_marginal Y = .ok tY ∧
      ∀ x, x < (chain3 a0 a1 a2 f0 f1 f2).node2dims X →
        tX.data [x] = rsum ((chain3 a0 a1 a2 f0 f1 f2).node2dims Y)
          (fun y => tC.data [x, y] * tY.data [y]) := by
  interval_cases X <;> interval_cases Y
  · exact absurd rfl hXY
  · exact chain_round01 a0 a1 a2 f0 f1 f2 hf0 hf1 hf2 hs1 hs2
  · exact chain_round02 a0 a1 a2 f0 f1 f2 hf0 hf1 hf2 hs1 hs2
  · exact chain_round10 a0 a1 a2 f0 f1 f2 hf0 hf1 hf2 hs1 hs2
  · exact absurd rfl hXY
  · exact chain_round12 a0 a1 a2 f0 f1 f2 hf0 hf1 hf2 hs1 hs2
  · exact chain_round20 a0 a1 a2 f0 f1 f2 hf0 hf1 hf2 hs1 hs2
  · exact chain_round21 a0 a1 a2 f0 f1 f2 hf0 hf1 hf2 hs1 hs2
  · exact absurd rfl hXY

/-- C5 witness: the round trip applied at the concrete binary chain
`chainC` with X = 2, Y = 0, all hypotheses discharged by evaluation. -/
theorem C5_witness :
    (2 : ℕ) ≠ 0 ∧
    ∃ tX tC tY : Tensor ℚ,
      chainC.get_marginal 2 = .ok tX ∧
      chainC.get_conditional [2] [0] = .ok tC ∧
      chainC.get_marginal 0 = .ok tY ∧
      ∀ x, x < chainC.node2dims 2 →
        tX.data [x] = rsum (chainC.node2dims 0)
          (fun y => tC.data [x, y] * tY.data [y]) :=
  ⟨by decide,
   C5_chain_round_trip [0, 1] [0, 1] [0, 1] (fun _ => 1/2)
     (fun i j => if i = 0 then (if j = 0 then 1/4 else 3/4)
                 else (if j = 0 then 2/3 else 1/3))
     (fun j k => if j = k then 1 else 0)
     (by with_unfolding_all decide) (by with_unfolding_all decide)
     (by with_unfolding_all decide) (by with_unfolding_all decide)
     (by with_unfolding_all decide)
     2 0 (by decide) (by decide) (by decide)⟩

end GM
